import Mathlib

/-!
Verification of the Rytestack middleware pipeline and its built-in policy
middleware (CORS, compression, CSRF protection, security headers).

The definitions below are a shallow embedding of:
* `packages/server/src/middleware/core.ts` (`createMiddlewareContext`,
  `createMiddlewareStack` with its shared `currentIndex` counter),
* `packages/server/src/middleware/builtin/cors.ts` (`cors`),
* the compression middleware (`compression`),
* the security-headers middleware (`securityHeaders`, `buildCspString`),
* the CSRF middleware (`csrfProtection`).

A middleware handler is modelled as a function from the context it is
invoked on to the list of primitive actions it performs: context effects,
calls to its continuation (`next`), and throws.  The interpreter `runActs`
mirrors `executeNext`: the shared mutable `currentIndex` of the source is
represented by the list of middleware entries not yet started (`rest`),
which is exactly `middlewares.slice(currentIndex + 1)`.  A fuel parameter
makes the interpreter total; fuel is consumed only when a continuation is
invoked, so a run that returns `fuelOut` corresponds to no real execution.
-/

namespace Rytestack

/-- Values storable in the Hono variable map (`ctx.set`) and in the
`rytestack.data` map.  `tokenGen secret` models the closure
`() => tokens.create(secret)` installed by the CSRF middleware. -/
inductive CtxVal where
  | str (s : String)
  | tokenGen (secret : String)
deriving DecidableEq, Repr

/-- Looks up the first value bound to key `k` in an association list
(models JS object / `Headers` lookup by exact name). -/
def lookupStr {α : Type} (l : List (String × α)) (k : String) : Option α :=
  (l.find? (fun p => p.1 == k)).map (fun p => p.2)

/-- Binds key `k` to `v`, dropping any previous binding
(models `Headers.set` / property assignment). -/
def setAssoc {α : Type} (l : List (String × α)) (k : String) (v : α) :
    List (String × α) :=
  (k, v) :: l.filter (fun p => !(p.1 == k))

/-- Removes every binding of key `k` (models `Headers.delete`). -/
def delAssoc {α : Type} (l : List (String × α)) (k : String) :
    List (String × α) :=
  l.filter (fun p => !(p.1 == k))

/-- A `Set-Cookie` record as produced by Hono's `ctx.cookie(name, value, opts)`. -/
structure CookieSet where
  name : String
  value : String
  path : Option String
  domain : Option String
  secure : Option Bool
  httpOnly : Option Bool
  sameSite : Option String
  maxAge : Option Nat
deriving DecidableEq, Repr

/-- The request/response exchange as the middleware observe it: the parts of
the Hono `Context` this code reads or writes, plus the Rytestack-specific
state installed by `createMiddlewareContext` (`params`, `startTime`, `data`). -/
structure Ctx where
  reqMethod : String
  reqPath : String
  reqHeaders : List (String × String)
  reqCookies : List (String × String)
  reqForm : List (String × String)
  resStatus : Nat
  resHeaders : List (String × String)
  resBody : String
  resCookies : List CookieSet
  vars : List (String × CtxVal)
  params : List (String × String)
  startTime : Nat
  rytestackData : List (String × CtxVal)
deriving DecidableEq, Repr

/-- `c.req.header(k)` (string or undefined). -/
def getReqHeader (c : Ctx) (k : String) : Option String :=
  lookupStr c.reqHeaders k

/-- `c.res.headers.get(k)`. -/
def getResHeader (c : Ctx) (k : String) : Option String :=
  lookupStr c.resHeaders k

/-- `c.header(k, v)` with a definite value. -/
def setResHeader (k v : String) (c : Ctx) : Ctx :=
  { c with resHeaders := setAssoc c.resHeaders k v }

/-- `c.header(k, undefined)`: Hono deletes the header. -/
def delResHeader (k : String) (c : Ctx) : Ctx :=
  { c with resHeaders := delAssoc c.resHeaders k }

/-- `c.header(k, v)` where `v : string | undefined`. -/
def honoHeader (k : String) (v : Option String) (c : Ctx) : Ctx :=
  match v with
  | some s => setResHeader k s c
  | none => delResHeader k c

/-- `c.status(n)`. -/
def setStatus (n : Nat) (c : Ctx) : Ctx :=
  { c with resStatus := n }

/-- `ctx.set(k, v)` (Hono context variable map). -/
def setVar (k : String) (v : CtxVal) (c : Ctx) : Ctx :=
  { c with vars := setAssoc c.vars k v }

/-- `ctx.json(body)`: JSON body with the JSON content type; the status
previously installed with `ctx.status` is kept. -/
def ctxJson (body : String) (c : Ctx) : Ctx :=
  { c with resBody := body,
           resHeaders := setAssoc c.resHeaders "Content-Type" "application/json" }

/-- `ctx.cookie(name, value, opts)`. -/
def addSetCookie (ck : CookieSet) (c : Ctx) : Ctx :=
  { c with resCookies := c.resCookies ++ [ck] }

/-- Substring containment on character lists, `sub` occurring anywhere in the
haystack (JS `String.prototype.includes`). -/
def containsSub (sub : List Char) : List Char → Bool
  | [] => sub.isEmpty
  | c :: t => sub.isPrefixOf (c :: t) || containsSub sub t

/-- JS `s.includes(sub)`. -/
def jsIncludes (s sub : String) : Bool :=
  containsSub sub.data s.data

/-- JS `a || b` on `string | undefined` values: the empty string is falsy. -/
def jsOrStr (a b : Option String) : Option String :=
  match a with
  | some s => if s = "" then b else some s
  | none => b

/-- JS falsiness of a `string | undefined` value. -/
def strFalsy (a : Option String) : Bool :=
  match a with
  | some s => s == ""
  | none => true

/-! ## The middleware pipeline (`packages/server/src/middleware/core.ts`) -/

/-- One primitive step a middleware handler performs: mutate the context,
invoke its continuation, or throw/reject. -/
inductive Act where
  | eff (g : Ctx → Ctx)
  | next
  | throwErr (msg : String)

def Act.isNext : Act → Bool
  | .next => true
  | _ => false

def Act.isThrow : Act → Bool
  | .throwErr _ => true
  | _ => false

def Act.isEff : Act → Bool
  | .eff _ => true
  | _ => false

/-- A `Middleware` record: a name and a handler.  The handler maps the
context it is invoked on to the sequence of actions it performs (branches in
the source depend only on values readable from that context). -/
structure Entry where
  name : String
  handler : Ctx → List Act

/-- Order-recording side channel: which entry or terminal handler ran. -/
inductive Ev where
  | enter (name : String)
  | terminal
deriving DecidableEq, Repr

def enterName (e : Entry) : Ev := Ev.enter e.name

/-- Interpreter state: the shared context object, the middleware entries not
yet started (the source's `middlewares.slice(currentIndex + 1)`), and the
event log. -/
structure PState where
  ctx : Ctx
  rest : List Entry
  log : List Ev

/-- Outcome of a pipeline run: normal return, an uncaught throw (the mutated
context is retained because the source mutates a shared object), or fuel
exhaustion (no real execution corresponds to this). -/
inductive Outcome where
  | ok (s : PState)
  | err (s : PState) (msg : String)
  | fuelOut

/-- Runs the maximal prefix of an action list that needs no continuation
call: either the handler returns, throws, or reaches a `next` with the
actions after it. -/
inductive SeqRes where
  | done (c : Ctx)
  | thrown (c : Ctx) (msg : String)
  | nextAt (c : Ctx) (after : List Act)

def seqStep : List Act → Ctx → SeqRes
  | [], c => .done c
  | .eff g :: as, c => seqStep as (g c)
  | .throwErr m :: _, c => .thrown c m
  | .next :: as, c => .nextAt c as

/-- The body of `executeNext`: invoking a continuation increments
`currentIndex`; if entries remain, the next entry's handler runs with the
shared state, otherwise the terminal route handler `next()` runs.  Actions
after a handler's `next` call resume on the state the downstream chain left
behind, exactly as the shared `currentIndex` makes them in the source.
Fuel is consumed once per continuation invocation. -/
def runActs (term : Ctx → Ctx) : Nat → List Act → PState → Outcome
  | 0, as, s =>
      match seqStep as s.ctx with
      | .done c => .ok { s with ctx := c }
      | .thrown c m => .err { s with ctx := c } m
      | .nextAt _ _ => .fuelOut
  | fuel + 1, as, s =>
      match seqStep as s.ctx with
      | .done c => .ok { s with ctx := c }
      | .thrown c m => .err { s with ctx := c } m
      | .nextAt c after =>
          match s.rest with
          | [] =>
              runActs term fuel after
                { ctx := term c, rest := [], log := s.log ++ [Ev.terminal] }
          | e :: rest =>
              match runActs term fuel (e.handler c)
                      { ctx := c, rest := rest, log := s.log ++ [Ev.enter e.name] } with
              | .ok s1 => runActs term fuel after s1
              | .err s1 m => .err s1 m
              | .fuelOut => .fuelOut

/-- `createMiddlewareContext`: installs the Rytestack state on the Hono
context (`params = {}`, `startTime = Date.now()`, `data = {}`).  `now`
stands for `Date.now()`. -/
def createMiddlewareContext (now : Nat) (c : Ctx) : Ctx :=
  { c with params := [], startTime := now, rytestackData := [] }

/-- `createMiddlewareStack(middlewares)` applied to one request: create the
middleware context, set `currentIndex = -1`, and call `executeNext()` once. -/
def createMiddlewareStack (middlewares : List Entry) (term : Ctx → Ctx)
    (now : Nat) (fuel : Nat) (c : Ctx) : Outcome :=
  runActs term fuel [Act.next]
    { ctx := createMiddlewareContext now c, rest := middlewares, log := [] }

/-- Applies the context effects of an action list in order, ignoring
`next`/`throw` markers. -/
def applyEffs (as : List Act) (c : Ctx) : Ctx :=
  as.foldl (fun c a => match a with | .eff g => g c | _ => c) c

/-- The action list only mutates the context: no continuation call, no throw. -/
def effOnly (as : List Act) : Bool :=
  as.all Act.isEff

/-- The handler run calls its continuation exactly once and returns normally. -/
def goodOnce (as : List Act) : Prop :=
  as.countP Act.isNext = 1 ∧ as.countP Act.isThrow = 0

instance (as : List Act) : Decidable (goodOnce as) := by
  unfold goodOnce; infer_instance

/-- The entry's handler calls its continuation exactly once on every context
and returns normally. -/
def CallsOnce (e : Entry) : Prop :=
  ∀ c, goodOnce (e.handler c)

/-- The entry's handler calls its continuation at most once (the contract the
spec imposes on middleware entries); it may throw. -/
def AtMostOnce (e : Entry) : Prop :=
  ∀ c, (e.handler c).countP Act.isNext ≤ 1

/-- The handler throws before any continuation call. -/
def throwsFirst : List Act → Bool
  | [] => false
  | .eff _ :: as => throwsFirst as
  | .throwErr _ :: _ => true
  | .next :: _ => false

/-! ## CORS middleware (`packages/server/src/middleware/builtin/cors.ts`) -/

/-- A `string | string[]` option value. -/
inductive StrOrList where
  | str (s : String)
  | list (l : List String)
deriving DecidableEq, Repr

/-- `Array.isArray(x) ? x.join(',') : x`. -/
def StrOrList.joinComma : StrOrList → String
  | .str s => s
  | .list l => String.intercalate "," l

/-- JS truthiness of a `string | string[]` value (an array is always truthy,
the empty string is falsy). -/
def StrOrList.truthy : StrOrList → Bool
  | .str s => !(s == "")
  | .list _ => true

/-- Result of the `origin` resolver callback: `string | boolean`. -/
inductive OriginFnRes where
  | str (s : String)
  | bool (b : Bool)

/-- The `origin` option: `string | string[] | ((origin) => string | boolean)`. -/
inductive OriginOpt where
  | str (s : String)
  | list (l : List String)
  | fn (f : String → OriginFnRes)

/-- `CorsOptions`; `none` models an absent field, filled by the
destructuring defaults in `cors`. -/
structure CorsOptions where
  origin : Option OriginOpt := none
  credentials : Option Bool := none
  exposeHeaders : Option StrOrList := none
  maxAge : Option Nat := none
  allowMethods : Option StrOrList := none
  allowHeaders : Option StrOrList := none

/-- The non-preflight `originHeader` computation of `cors`.  For an array
option, a non-member request origin falls back to `origin[0]`; on an empty
array `origin[0]` is `undefined` (`none`), which `c.header` treats as a
deletion.  For a resolver, a falsy result (including the empty string and
`false`) falls back to the wildcard. -/
def corsOriginHeader (origin : OriginOpt) (c : Ctx) : Option String :=
  match origin with
  | .fn f =>
      let requestOrigin := (getReqHeader c "Origin").getD ""
      match f requestOrigin with
      | .bool true => some requestOrigin
      | .bool false => some "*"
      | .str s => if s = "" then some "*" else some s
  | .list l =>
      let requestOrigin := (getReqHeader c "Origin").getD ""
      if l.contains requestOrigin then some requestOrigin else l.head?
  | .str s => some s

/-- The handler of the `cors` middleware. -/
def corsHandler (options : CorsOptions) (c : Ctx) : List Act :=
  let origin := options.origin.getD (OriginOpt.str "*")
  let credentials := options.credentials.getD false
  let exposeHeaders := options.exposeHeaders.getD (StrOrList.str "")
  let maxAge := options.maxAge.getD 86400
  let allowMethods :=
    options.allowMethods.getD (StrOrList.str "GET,HEAD,PUT,POST,DELETE,PATCH")
  let allowHeaders := options.allowHeaders.getD (StrOrList.str "")
  if c.reqMethod == "OPTIONS" then
    [Act.eff (setResHeader "Access-Control-Allow-Methods" allowMethods.joinComma),
     Act.eff (setResHeader "Access-Control-Allow-Headers" allowHeaders.joinComma),
     Act.eff (setResHeader "Access-Control-Max-Age" (toString maxAge)),
     Act.eff (setStatus 204)]
  else
    [Act.eff (honoHeader "Access-Control-Allow-Origin" (corsOriginHeader origin c))]
    ++ (if credentials then
          [Act.eff (setResHeader "Access-Control-Allow-Credentials" "true")]
        else [])
    ++ (if exposeHeaders.truthy then
          [Act.eff (setResHeader "Access-Control-Expose-Headers" exposeHeaders.joinComma)]
        else [])
    ++ [Act.next]

/-- `cors(options)`. -/
def cors (options : CorsOptions := {}) : Entry :=
  { name := "cors", handler := corsHandler options }

/-! ## Compression middleware -/

/-- `DEFAULT_CONTENT_TYPES`. -/
def DEFAULT_CONTENT_TYPES : List String :=
  ["text/plain", "text/html", "text/css", "text/javascript",
   "application/javascript", "application/json", "application/xml",
   "application/rss+xml", "application/atom+xml"]

/-- `CompressionOptions`; `none` models an absent field. -/
structure CompressionOptions where
  threshold : Option Nat := none
  contentTypes : Option (List String) := none

/-- Everything the compression handler does after `await next()`: inspect
`Accept-Encoding`, the response content type and the response body size, and
set `Content-Encoding` when all checks pass (the source sets only the header
and does not transform the body). -/
def compressionPost (threshold : Nat) (contentTypes : List String) (c : Ctx) : Ctx :=
  let acceptEncoding := (getReqHeader c "Accept-Encoding").getD ""
  let supportsGzip := jsIncludes acceptEncoding "gzip"
  let supportsBrotli := jsIncludes acceptEncoding "br"
  if !supportsGzip && !supportsBrotli then c
  else
    let contentType := (getResHeader c "Content-Type").getD ""
    let shouldCompress := contentTypes.any (fun t => jsIncludes contentType t)
    if !shouldCompress then c
    else if c.resBody.length < threshold then c
    else if supportsBrotli then setResHeader "Content-Encoding" "br" c
    else if supportsGzip then setResHeader "Content-Encoding" "gzip" c
    else c

/-- `compression(options)`: the handler awaits its continuation first and
then runs the post-processing effect. -/
def compression (options : CompressionOptions := {}) : Entry :=
  { name := "compression",
    handler := fun _ =>
      [Act.next,
       Act.eff (compressionPost (options.threshold.getD 1024)
                  (options.contentTypes.getD DEFAULT_CONTENT_TYPES))] }

/-! ## Security headers middleware -/

/-- A `string | boolean` option value. -/
inductive BoolOrStr where
  | bool (b : Bool)
  | str (s : String)
deriving DecidableEq, Repr

def BoolOrStr.truthy : BoolOrStr → Bool
  | .bool b => b
  | .str s => !(s == "")

/-- The `hsts` option: `boolean | { maxAge?, includeSubDomains?, preload? }`. -/
inductive HstsOpt where
  | bool (b : Bool)
  | cfg (maxAge : Option Nat) (includeSubDomains : Bool) (preload : Bool)
deriving DecidableEq, Repr

def HstsOpt.truthy : HstsOpt → Bool
  | .bool b => b
  | .cfg _ _ _ => true

/-- A CSP directive value: `string[] | string | boolean`. -/
inductive CspVal where
  | arr (l : List String)
  | str (s : String)
  | bool (b : Bool)
deriving DecidableEq, Repr

def CspVal.truthy : CspVal → Bool
  | .arr _ => true
  | .str s => !(s == "")
  | .bool b => b

/-- `ContentSecurityPolicyConfig`: directive-to-value bindings in insertion
order (`Object.entries` order). -/
structure CspConfig where
  entries : List (String × CspVal)
deriving DecidableEq, Repr

def CspConfig.lookup (cfg : CspConfig) (k : String) : Option CspVal :=
  lookupStr cfg.entries k

/-- JS truthiness of `config[k]` (absent is falsy). -/
def CspConfig.truthyAt (cfg : CspConfig) (k : String) : Bool :=
  match cfg.lookup k with
  | some v => v.truthy
  | none => false

/-- The `contentSecurityPolicy` option: `ContentSecurityPolicyConfig | boolean`. -/
inductive CspOpt where
  | bool (b : Bool)
  | cfg (c : CspConfig)
deriving DecidableEq, Repr

def CspOpt.truthy : CspOpt → Bool
  | .bool b => b
  | .cfg _ => true

/-- The directive-collection loop of `buildCspString`: the four special keys
are skipped, empty arrays are skipped, string and (true) boolean values are
rendered. -/
def cspLoopDirectives : List (String × CspVal) → List String
  | [] => []
  | (directive, sources) :: rest =>
      if directive == "unsafe-inline" || directive == "unsafe-eval" ||
         directive == "upgrade-insecure-requests" ||
         directive == "block-all-mixed-content" then
        cspLoopDirectives rest
      else
        match sources with
        | .arr l =>
            if l.isEmpty then cspLoopDirectives rest
            else (directive ++ " " ++ String.intercalate " " l) :: cspLoopDirectives rest
        | .str s => (directive ++ " " ++ s) :: cspLoopDirectives rest
        | .bool b =>
            if b then directive :: cspLoopDirectives rest else cspLoopDirectives rest

/-- `directives.findIndex(d => d.startsWith(p))` followed by appending `suf`
to the found element. -/
def appendAtFirst (p : String) (suf : String) : List String → List String
  | [] => []
  | d :: ds => if d.startsWith p then (d ++ suf) :: ds else d :: appendAtFirst p suf ds

/-- `buildCspString(config)`. -/
def buildCspString (config : CspConfig) : String :=
  let ds0 := cspLoopDirectives config.entries
  let ds1 :=
    if config.truthyAt "unsafe-inline" then
      let dsA :=
        if config.truthyAt "script-src" then
          appendAtFirst "script-src" " \x27unsafe-inline\x27" ds0
        else ds0
      if config.truthyAt "style-src" then
        appendAtFirst "style-src" " \x27unsafe-inline\x27" dsA
      else dsA
    else ds0
  let ds2 :=
    if config.truthyAt "unsafe-eval" then
      if config.truthyAt "script-src" then
        appendAtFirst "script-src" " \x27unsafe-eval\x27" ds1
      else ds1
    else ds1
  let ds3 :=
    if config.truthyAt "upgrade-insecure-requests" then
      ds2 ++ ["upgrade-insecure-requests"]
    else ds2
  let ds4 :=
    if config.truthyAt "block-all-mixed-content" then
      ds3 ++ ["block-all-mixed-content"]
    else ds3
  String.intercalate "; " ds4

/-- `SecurityHeadersOptions`; `none` models an absent field. -/
structure SecurityHeadersOptions where
  xssProtection : Option BoolOrStr := none
  contentTypeOptions : Option BoolOrStr := none
  frameOptions : Option BoolOrStr := none
  hsts : Option HstsOpt := none
  contentSecurityPolicy : Option CspOpt := none
  referrerPolicy : Option BoolOrStr := none
  customHeaders : Option (List (String × String)) := none
  enableDefaults : Option Bool := none

/-- `DEFAULT_SECURITY_HEADERS`. -/
def DEFAULT_SECURITY_HEADERS : SecurityHeadersOptions :=
  { xssProtection := some (.str "1; mode=block"),
    contentTypeOptions := some (.str "nosniff"),
    frameOptions := some (.str "SAMEORIGIN"),
    hsts := some (.cfg (some 15552000) true false),
    contentSecurityPolicy := some (.bool false),
    referrerPolicy := some (.str "strict-origin-when-cross-origin"),
    enableDefaults := some true }

/-- `{ ...DEFAULT_SECURITY_HEADERS, ...options }`. -/
def mergeSecurityHeaders (o : SecurityHeadersOptions) : SecurityHeadersOptions :=
  { xssProtection := o.xssProtection.orElse (fun _ => DEFAULT_SECURITY_HEADERS.xssProtection),
    contentTypeOptions := o.contentTypeOptions.orElse (fun _ => DEFAULT_SECURITY_HEADERS.contentTypeOptions),
    frameOptions := o.frameOptions.orElse (fun _ => DEFAULT_SECURITY_HEADERS.frameOptions),
    hsts := o.hsts.orElse (fun _ => DEFAULT_SECURITY_HEADERS.hsts),
    contentSecurityPolicy := o.contentSecurityPolicy.orElse (fun _ => DEFAULT_SECURITY_HEADERS.contentSecurityPolicy),
    referrerPolicy := o.referrerPolicy.orElse (fun _ => DEFAULT_SECURITY_HEADERS.referrerPolicy),
    customHeaders := o.customHeaders.orElse (fun _ => DEFAULT_SECURITY_HEADERS.customHeaders),
    enableDefaults := o.enableDefaults.orElse (fun _ => DEFAULT_SECURITY_HEADERS.enableDefaults) }

/-- `typeof x === 'boolean' ? dflt : x`. -/
def shValue (dflt : String) : BoolOrStr → String
  | .bool _ => dflt
  | .str s => s

/-- The `Strict-Transport-Security` value computation; JS `maxAge || 15552000`
treats `0` as absent. -/
def hstsValue : HstsOpt → String
  | .bool _ => "max-age=15552000; includeSubDomains"
  | .cfg maxAge includeSubDomains preload =>
      let v := "max-age=" ++ toString (match maxAge with
        | some n => if n == 0 then 15552000 else n
        | none => 15552000)
      let v := if includeSubDomains then v ++ "; includeSubDomains" else v
      if preload then v ++ "; preload" else v

/-- The CSP configuration used when `contentSecurityPolicy` is `true`. -/
def cspDefaultConfig : CspConfig :=
  ⟨[("default-src", .arr ["\x27self\x27"]), ("script-src", .arr ["\x27self\x27"]),
    ("style-src", .arr ["\x27self\x27"]), ("img-src", .arr ["\x27self\x27"]),
    ("font-src", .arr ["\x27self\x27"]), ("connect-src", .arr ["\x27self\x27"]),
    ("object-src", .arr ["\x27none\x27"])]⟩

/-- The header-setting effects of the security-headers handler, in source
order, from the merged configuration. -/
def securityHeadersActs (config : SecurityHeadersOptions) : List Act :=
  (match config.xssProtection with
   | some v =>
       if v.truthy then [Act.eff (setResHeader "X-XSS-Protection" (shValue "1; mode=block" v))]
       else []
   | none => [])
  ++ (match config.contentTypeOptions with
      | some v =>
          if v.truthy then [Act.eff (setResHeader "X-Content-Type-Options" (shValue "nosniff" v))]
          else []
      | none => [])
  ++ (match config.frameOptions with
      | some v =>
          if v.truthy then [Act.eff (setResHeader "X-Frame-Options" (shValue "SAMEORIGIN" v))]
          else []
      | none => [])
  ++ (match config.hsts with
      | some v =>
          if v.truthy then [Act.eff (setResHeader "Strict-Transport-Security" (hstsValue v))]
          else []
      | none => [])
  ++ (match config.contentSecurityPolicy with
      | some v =>
          if v.truthy then
            (let cspConfig := match v with | .bool _ => cspDefaultConfig | .cfg cc => cc
             let cspValue := buildCspString cspConfig
             if !(cspValue == "") then [Act.eff (setResHeader "Content-Security-Policy" cspValue)]
             else [])
          else []
      | none => [])
  ++ (match config.referrerPolicy with
      | some v =>
          if v.truthy then
            [Act.eff (setResHeader "Referrer-Policy" (shValue "strict-origin-when-cross-origin" v))]
          else []
      | none => [])
  ++ (match config.customHeaders with
      | some hs => hs.map (fun p => Act.eff (setResHeader p.1 p.2))
      | none => [])

/-- `securityHeaders(options)`: set all configured headers, then call the
continuation. -/
def securityHeaders (options : SecurityHeadersOptions := {}) : Entry :=
  { name := "security-headers",
    handler := fun _ => securityHeadersActs (mergeSecurityHeaders options) ++ [Act.next] }

/-! ## CSRF protection middleware -/

/-- The external `csrf` npm library instance (`new csrf({ ttl })`): secret
generation, token derivation and token verification.  The claims hold for
every instance, so it is a parameter of the embedding. -/
structure CsrfTokens where
  secretSync : String
  create : String → String
  verify : String → String → Bool

/-- The `cookie` sub-options of `CsrfOptions`. -/
structure CsrfCookieOptions where
  path : Option String := none
  domain : Option String := none
  secure : Option Bool := none
  httpOnly : Option Bool := none
  sameSite : Option String := none
  maxAge : Option Nat := none

/-- `CsrfOptions`; `none` models an absent field. -/
structure CsrfOptions where
  cookieName : Option String := none
  headerName : Option String := none
  formFieldName : Option String := none
  cookie : Option CsrfCookieOptions := none
  ignoreMethods : Option (List String) := none
  ignorePaths : Option (List String) := none
  shouldExclude : Option (Ctx → Bool) := none
  tokenTtl : Option Nat := none

/-- Models `process.env.NODE_ENV === 'production'` for the running process
(the claims do not depend on it). -/
def NODE_ENV_IS_PRODUCTION : Bool := false

/-- The `cookie` part of `DEFAULT_CSRF_OPTIONS`. -/
def DEFAULT_CSRF_COOKIE : CsrfCookieOptions :=
  { path := some "/", secure := some NODE_ENV_IS_PRODUCTION,
    httpOnly := some true, sameSite := some "lax", maxAge := some 86400 }

/-- `DEFAULT_CSRF_OPTIONS`. -/
def DEFAULT_CSRF_OPTIONS : CsrfOptions :=
  { cookieName := some "rytestack-csrf", headerName := some "x-csrf-token",
    formFieldName := some "_csrf", cookie := some DEFAULT_CSRF_COOKIE,
    ignoreMethods := some ["GET", "HEAD", "OPTIONS"], ignorePaths := some [],
    tokenTtl := some 86400 }

/-- `{ ...DEFAULT_CSRF_OPTIONS, ...options }`. -/
def mergeCsrfOptions (o : CsrfOptions) : CsrfOptions :=
  { cookieName := o.cookieName.orElse (fun _ => DEFAULT_CSRF_OPTIONS.cookieName),
    headerName := o.headerName.orElse (fun _ => DEFAULT_CSRF_OPTIONS.headerName),
    formFieldName := o.formFieldName.orElse (fun _ => DEFAULT_CSRF_OPTIONS.formFieldName),
    cookie := o.cookie.orElse (fun _ => DEFAULT_CSRF_OPTIONS.cookie),
    ignoreMethods := o.ignoreMethods.orElse (fun _ => DEFAULT_CSRF_OPTIONS.ignoreMethods),
    ignorePaths := o.ignorePaths.orElse (fun _ => DEFAULT_CSRF_OPTIONS.ignorePaths),
    shouldExclude := o.shouldExclude,
    tokenTtl := o.tokenTtl.orElse (fun _ => DEFAULT_CSRF_OPTIONS.tokenTtl) }

/-- `{ ...DEFAULT_CSRF_OPTIONS.cookie, ...options.cookie }`. -/
def mergeCsrfCookie (o : Option CsrfCookieOptions) : CsrfCookieOptions :=
  match o with
  | none => DEFAULT_CSRF_COOKIE
  | some c =>
      { path := c.path.orElse (fun _ => DEFAULT_CSRF_COOKIE.path),
        domain := c.domain.orElse (fun _ => DEFAULT_CSRF_COOKIE.domain),
        secure := c.secure.orElse (fun _ => DEFAULT_CSRF_COOKIE.secure),
        httpOnly := c.httpOnly.orElse (fun _ => DEFAULT_CSRF_COOKIE.httpOnly),
        sameSite := c.sameSite.orElse (fun _ => DEFAULT_CSRF_COOKIE.sameSite),
        maxAge := c.maxAge.orElse (fun _ => DEFAULT_CSRF_COOKIE.maxAge) }

/-- A single `ignorePaths` entry check: a trailing `*` makes it a path
prefix pattern — `path.startsWith(ignorePath.slice(0, -1))` — otherwise an
exact match.  Spelled on character lists (last character, drop-last,
prefix) so concrete instances evaluate. -/
def csrfIgnorePathMatch (path ignorePath : String) : Bool :=
  if ignorePath.data.getLast? == some (Char.ofNat 42) then
    (ignorePath.data.dropLast).isPrefixOf path.data
  else path == ignorePath

/-- The JSON error body of a CSRF rejection,
`\x7b "error": "Invalid CSRF token" \x7d` rendered without spaces. -/
def csrfInvalidBody : String :=
  "\x7b\"error\":\"Invalid CSRF token\"\x7d"

/-- The handler of `csrfProtection(options)` (the `tokens` instance is the
external library parameter).  Note that all three exemption branches call
the continuation and return before the `csrfToken` capability is installed,
and that the capability is installed with Hono's `ctx.set`, not in
`context.rytestack.data`. -/
def csrfHandler (tokens : CsrfTokens) (options : CsrfOptions) (c : Ctx) : List Act :=
  let config := mergeCsrfOptions options
  let cookieConfig := mergeCsrfCookie options.cookie
  let method := c.reqMethod
  let path := c.reqPath
  if (config.ignoreMethods.getD []).contains method then [Act.next]
  else if (config.ignorePaths.getD []).any (csrfIgnorePathMatch path) then [Act.next]
  else if (match config.shouldExclude with | some f => f c | none => false) then [Act.next]
  else
    let cookieName := config.cookieName.getD ""
    let cookieVal := lookupStr c.reqCookies cookieName
    let hasSecret := !(strFalsy cookieVal)
    let secret := if hasSecret then cookieVal.getD "" else tokens.secretSync
    let preActs : List Act :=
      if hasSecret then []
      else
        [Act.eff (addSetCookie
          { name := cookieName, value := tokens.secretSync,
            path := cookieConfig.path, domain := cookieConfig.domain,
            secure := cookieConfig.secure, httpOnly := cookieConfig.httpOnly,
            sameSite := cookieConfig.sameSite, maxAge := cookieConfig.maxAge })]
    if !((config.ignoreMethods.getD []).contains method) then
      let token := jsOrStr (getReqHeader c (config.headerName.getD ""))
                           (lookupStr c.reqForm (config.formFieldName.getD ""))
      if strFalsy token || !(tokens.verify secret (token.getD "")) then
        preActs ++ [Act.eff (setStatus 403), Act.eff (ctxJson csrfInvalidBody)]
      else
        preActs ++ [Act.eff (setVar "csrfToken" (CtxVal.tokenGen secret)), Act.next]
    else
      preActs ++ [Act.eff (setVar "csrfToken" (CtxVal.tokenGen secret)), Act.next]

/-- `csrfProtection(options)`. -/
def csrfProtection (tokens : CsrfTokens) (options : CsrfOptions := {}) : Entry :=
  { name := "csrf-protection", handler := csrfHandler tokens options }

/-! ## Interpreter lemmas -/

theorem applyEffs_nil (c : Ctx) : applyEffs [] c = c := rfl

theorem applyEffs_cons_eff (g : Ctx → Ctx) (t : List Act) (c : Ctx) :
    applyEffs (Act.eff g :: t) c = applyEffs t (g c) := rfl

theorem seqStep_effOnly (as : List Act) (h : effOnly as = true) (c : Ctx) :
    seqStep as c = .done (applyEffs as c) := by
  induction as generalizing c with
  | nil => rfl
  | cons a t ih =>
    cases a with
    | eff g =>
      simp only [effOnly, List.all_cons, Bool.and_eq_true] at h
      rw [seqStep, applyEffs_cons_eff]
      exact ih h.2 (g c)
    | next => simp [effOnly, Act.isEff] at h
    | throwErr m => simp [effOnly, Act.isEff] at h

theorem effOnly_of_counts (as : List Act) (h1 : as.countP Act.isNext = 0)
    (h2 : as.countP Act.isThrow = 0) : effOnly as = true := by
  induction as with
  | nil => rfl
  | cons a t ih =>
    cases a with
    | eff g =>
      simp only [List.countP_cons, Act.isNext, Act.isThrow, if_neg, Bool.false_eq_true,
        reduceIte, Nat.add_zero] at h1 h2
      simp only [effOnly, List.all_cons, Bool.and_eq_true, Act.isEff, true_and]
      exact ih h1 h2
    | next => simp [List.countP_cons, Act.isNext] at h1
    | throwErr m => simp [List.countP_cons, Act.isThrow] at h2

theorem seqStep_noNext (as : List Act) (h : as.countP Act.isNext = 0) (c : Ctx) :
    (∃ c', seqStep as c = .done c') ∨ (∃ c' m, seqStep as c = .thrown c' m) := by
  induction as generalizing c with
  | nil => exact Or.inl ⟨c, rfl⟩
  | cons a t ih =>
    cases a with
    | eff g =>
      simp only [List.countP_cons, Act.isNext, Bool.false_eq_true, reduceIte,
        Nat.add_zero] at h
      exact ih h (g c)
    | next => simp [List.countP_cons, Act.isNext] at h
    | throwErr m => exact Or.inr ⟨c, m, rfl⟩

theorem seqStep_goodOnce (as : List Act) (h : goodOnce as) (c : Ctx) :
    ∃ c1 after, seqStep as c = .nextAt c1 after ∧
      after.countP Act.isNext = 0 ∧ after.countP Act.isThrow = 0 := by
  obtain ⟨h1, h2⟩ := h
  induction as generalizing c with
  | nil => simp at h1
  | cons a t ih =>
    cases a with
    | eff g =>
      simp only [List.countP_cons, Act.isNext, Act.isThrow, Bool.false_eq_true,
        reduceIte, Nat.add_zero] at h1 h2
      exact ih (g c) h1 h2
    | next =>
      simp only [List.countP_cons, Act.isNext, Act.isThrow, Bool.false_eq_true,
        reduceIte, Nat.add_zero] at h1 h2
      exact ⟨c, t, rfl, by omega, by omega⟩
    | throwErr m => simp [List.countP_cons, Act.isThrow] at h2

theorem seqStep_throwsFirst (as : List Act) (h : throwsFirst as = true) (c : Ctx) :
    ∃ c1 m, seqStep as c = .thrown c1 m := by
  induction as generalizing c with
  | nil => simp [throwsFirst] at h
  | cons a t ih =>
    cases a with
    | eff g => exact ih (by simpa [throwsFirst] using h) (g c)
    | next => simp [throwsFirst] at h
    | throwErr m => exact ⟨c, m, rfl⟩

theorem seqStep_nextAt_countP (as : List Act) (c c1 : Ctx) (after : List Act)
    (h : seqStep as c = .nextAt c1 after) :
    as.countP Act.isNext = after.countP Act.isNext + 1 := by
  induction as generalizing c with
  | nil => simp [seqStep] at h
  | cons a t ih =>
    cases a with
    | eff g =>
      rw [seqStep] at h
      simpa [List.countP_cons, Act.isNext] using ih (g c) h
    | next =>
      rw [seqStep] at h
      cases h
      simp [List.countP_cons, Act.isNext]
    | throwErr m => simp [seqStep] at h

theorem runActs_effOnly (term : Ctx → Ctx) (fuel : Nat) (as : List Act) (s : PState)
    (h : effOnly as = true) :
    runActs term fuel as s = .ok { s with ctx := applyEffs as s.ctx } := by
  cases fuel <;> simp [runActs, seqStep_effOnly as h]

theorem runActs_of_thrown (term : Ctx → Ctx) (fuel : Nat) (as : List Act) (s : PState)
    (c' : Ctx) (m : String) (h : seqStep as s.ctx = .thrown c' m) :
    runActs term fuel as s = .err { s with ctx := c' } m := by
  cases fuel <;> simp [runActs, h]

theorem runActs_noNext (term : Ctx → Ctx) (fuel : Nat) (as : List Act) (s : PState)
    (h : as.countP Act.isNext = 0) :
    (∃ c', runActs term fuel as s = .ok { s with ctx := c' }) ∨
    (∃ c' m, runActs term fuel as s = .err { s with ctx := c' } m) := by
  rcases seqStep_noNext as h s.ctx with ⟨c', hc⟩ | ⟨c', m, hc⟩
  · exact Or.inl ⟨c', by cases fuel <;> simp [runActs, hc]⟩
  · exact Or.inr ⟨c', m, by cases fuel <;> simp [runActs, hc]⟩

theorem runActs_all_once (term : Ctx → Ctx) :
    ∀ (ms : List Entry), (∀ e ∈ ms, CallsOnce e) →
    ∀ (fuel : Nat), ms.length + 1 ≤ fuel →
    ∀ (as : List Act), goodOnce as →
    ∀ (c : Ctx) (log : List Ev),
    ∃ c', runActs term fuel as ⟨c, ms, log⟩ =
      .ok ⟨c', [], log ++ ms.map enterName ++ [Ev.terminal]⟩ := by
  intro ms
  induction ms with
  | nil =>
    intro _ fuel hf as hg c log
    obtain ⟨f, rfl⟩ : ∃ f, fuel = f + 1 := ⟨fuel - 1, by omega⟩
    obtain ⟨c1, after, hstep, hn, ht⟩ := seqStep_goodOnce as hg c
    have heff := effOnly_of_counts after hn ht
    refine ⟨applyEffs after (term c1), ?_⟩
    simp [runActs, hstep, runActs_effOnly term f after _ heff]
  | cons e ms ih =>
    intro hall fuel hf as hg c log
    obtain ⟨f, rfl⟩ : ∃ f, fuel = f + 1 := ⟨fuel - 1, by omega⟩
    have hf2 : ms.length + 1 ≤ f := by simp at hf; omega
    obtain ⟨c1, after, hstep, hn, ht⟩ := seqStep_goodOnce as hg c
    have heff := effOnly_of_counts after hn ht
    obtain ⟨c2, hin⟩ := ih (fun x hx => hall x (List.mem_cons_of_mem e hx)) f hf2
      (e.handler c1) (hall e (List.mem_cons_self e ms) c1) c1 (log ++ [Ev.enter e.name])
    refine ⟨applyEffs after c2, ?_⟩
    simp [runActs, hstep, hin, runActs_effOnly term f after _ heff, enterName]

theorem runActs_shortcircuit (term : Ctx → Ctx) :
    ∀ (pre : List Entry), (∀ e ∈ pre, CallsOnce e) →
    ∀ (ek : Entry), (∀ c, effOnly (ek.handler c) = true) →
    ∀ (after0 : List Entry) (fuel : Nat), pre.length + 1 ≤ fuel →
    ∀ (as : List Act), goodOnce as →
    ∀ (c : Ctx) (log : List Ev),
    ∃ c', runActs term fuel as ⟨c, pre ++ ek :: after0, log⟩ =
      .ok ⟨c', after0, log ++ (pre ++ [ek]).map enterName⟩ := by
  intro pre
  induction pre with
  | nil =>
    intro _ ek hek after0 fuel hf as hg c log
    obtain ⟨f, rfl⟩ : ∃ f, fuel = f + 1 := ⟨fuel - 1, by omega⟩
    obtain ⟨c1, after, hstep, hn, ht⟩ := seqStep_goodOnce as hg c
    have heff := effOnly_of_counts after hn ht
    refine ⟨applyEffs after (applyEffs (ek.handler c1) c1), ?_⟩
    simp [runActs, hstep, runActs_effOnly term f (ek.handler c1) _ (hek c1),
      runActs_effOnly term f after _ heff, enterName]
  | cons e pre ih =>
    intro hall ek hek after0 fuel hf as hg c log
    obtain ⟨f, rfl⟩ : ∃ f, fuel = f + 1 := ⟨fuel - 1, by omega⟩
    have hf2 : pre.length + 1 ≤ f := by simp at hf; omega
    obtain ⟨c1, after, hstep, hn, ht⟩ := seqStep_goodOnce as hg c
    have heff := effOnly_of_counts after hn ht
    obtain ⟨c2, hin⟩ := ih (fun x hx => hall x (List.mem_cons_of_mem e hx)) ek hek
      after0 f hf2 (e.handler c1) (hall e (List.mem_cons_self e pre) c1) c1
      (log ++ [Ev.enter e.name])
    refine ⟨applyEffs after c2, ?_⟩
    simp [runActs, hstep, hin, runActs_effOnly term f after _ heff, enterName]

theorem runActs_throwAbort (term : Ctx → Ctx) :
    ∀ (pre : List Entry), (∀ e ∈ pre, CallsOnce e) →
    ∀ (ek : Entry), (∀ c, throwsFirst (ek.handler c) = true) →
    ∀ (after0 : List Entry) (fuel : Nat), pre.length + 1 ≤ fuel →
    ∀ (as : List Act), goodOnce as →
    ∀ (c : Ctx) (log : List Ev),
    ∃ c' msg, runActs term fuel as ⟨c, pre ++ ek :: after0, log⟩ =
      .err ⟨c', after0, log ++ (pre ++ [ek]).map enterName⟩ msg := by
  intro pre
  induction pre with
  | nil =>
    intro _ ek hek after0 fuel hf as hg c log
    obtain ⟨f, rfl⟩ : ∃ f, fuel = f + 1 := ⟨fuel - 1, by omega⟩
    obtain ⟨c1, after, hstep, hn, ht⟩ := seqStep_goodOnce as hg c
    obtain ⟨c2, m, hth⟩ := seqStep_throwsFirst (ek.handler c1) (hek c1) c1
    have hrun := runActs_of_thrown term f (ek.handler c1)
      ⟨c1, after0, log ++ [Ev.enter ek.name]⟩ c2 m hth
    refine ⟨c2, m, ?_⟩
    simp [runActs, hstep, hrun, enterName]
  | cons e pre ih =>
    intro hall ek hek after0 fuel hf as hg c log
    obtain ⟨f, rfl⟩ : ∃ f, fuel = f + 1 := ⟨fuel - 1, by omega⟩
    have hf2 : pre.length + 1 ≤ f := by simp at hf; omega
    obtain ⟨c1, after, hstep, hn, ht⟩ := seqStep_goodOnce as hg c
    obtain ⟨c2, m, hin⟩ := ih (fun x hx => hall x (List.mem_cons_of_mem e hx)) ek hek
      after0 f hf2 (e.handler c1) (hall e (List.mem_cons_self e pre) c1) c1
      (log ++ [Ev.enter e.name])
    refine ⟨c2, m, ?_⟩
    simp [runActs, hstep, hin, enterName]

/-- Log and remaining-entries of a completed run (`none` for fuel
exhaustion, which corresponds to no real execution). -/
def logRestOf : Outcome → Option (List Ev × List Entry)
  | .ok s => some (s.log, s.rest)
  | .err s _ => some (s.log, s.rest)
  | .fuelOut => none

/-- Under the at-most-once contract, every completed run enters a prefix of
the pending entries in order, and reaches the terminal handler (exactly
once, at the end) only when every pending entry has been entered. -/
theorem runActs_atMostOnce (term : Ctx → Ctx) :
    ∀ (fuel : Nat) (as : List Act) (s : PState),
    (∀ e ∈ s.rest, AtMostOnce e) → as.countP Act.isNext ≤ 1 →
    ∀ lg rst, logRestOf (runActs term fuel as s) = some (lg, rst) →
    (∃ k, rst = s.rest.drop k ∧ lg = s.log ++ (s.rest.take k).map enterName) ∨
    (rst = [] ∧ lg = s.log ++ s.rest.map enterName ++ [Ev.terminal]) := by
  intro fuel
  induction fuel with
  | zero =>
    intro as s hrest hcnt lg rst hlr
    cases hstep : seqStep as s.ctx with
    | done c' =>
      rw [runActs, hstep] at hlr
      simp only [logRestOf, Option.some.injEq, Prod.mk.injEq] at hlr
      exact Or.inl ⟨0, by simp [hlr.2.symm], by simp [hlr.1.symm]⟩
    | thrown c' m =>
      rw [runActs, hstep] at hlr
      simp only [logRestOf, Option.some.injEq, Prod.mk.injEq] at hlr
      exact Or.inl ⟨0, by simp [hlr.2.symm], by simp [hlr.1.symm]⟩
    | nextAt c1 after =>
      rw [runActs, hstep] at hlr
      simp [logRestOf] at hlr
  | succ f ih =>
    intro as s hrest hcnt lg rst hlr
    cases hstep : seqStep as s.ctx with
    | done c' =>
      rw [runActs, hstep] at hlr
      simp only [logRestOf, Option.some.injEq, Prod.mk.injEq] at hlr
      exact Or.inl ⟨0, by simp [hlr.2.symm], by simp [hlr.1.symm]⟩
    | thrown c' m =>
      rw [runActs, hstep] at hlr
      simp only [logRestOf, Option.some.injEq, Prod.mk.injEq] at hlr
      exact Or.inl ⟨0, by simp [hlr.2.symm], by simp [hlr.1.symm]⟩
    | nextAt c1 after =>
      have hafter : after.countP Act.isNext = 0 := by
        have := seqStep_nextAt_countP as s.ctx c1 after hstep
        omega
      rw [runActs, hstep] at hlr
      rcases hsrest : s.rest with _ | ⟨e, rest⟩
      · simp only [hsrest] at hlr
        rcases runActs_noNext term f after
            ⟨term c1, [], s.log ++ [Ev.terminal]⟩ hafter with ⟨cz, hz⟩ | ⟨cz, m, hz⟩
        · simp only [hz] at hlr
          simp only [logRestOf, Option.some.injEq, Prod.mk.injEq] at hlr
          exact Or.inr ⟨hlr.2.symm, by simp [hlr.1.symm, hsrest]⟩
        · simp only [hz] at hlr
          simp only [logRestOf, Option.some.injEq, Prod.mk.injEq] at hlr
          exact Or.inr ⟨hlr.2.symm, by simp [hlr.1.symm, hsrest]⟩
      · simp only [hsrest] at hlr
        have hrest2 : ∀ x ∈ rest, AtMostOnce x := by
          intro x hx
          exact hrest x (by rw [hsrest]; exact List.mem_cons_of_mem e hx)
        have hcnt2 : (e.handler c1).countP Act.isNext ≤ 1 :=
          hrest e (by rw [hsrest]; exact List.mem_cons_self e rest) c1
        cases hin : runActs term f (e.handler c1)
            ⟨c1, rest, s.log ++ [Ev.enter e.name]⟩ with
        | ok s2 =>
          simp only [hin] at hlr
          have hmid := ih (e.handler c1) ⟨c1, rest, s.log ++ [Ev.enter e.name]⟩
            hrest2 hcnt2 s2.log s2.rest (by rw [hin]; rfl)
          rcases runActs_noNext term f after s2 hafter with ⟨cz, hz⟩ | ⟨cz, m, hz⟩
          · simp only [hz] at hlr
            simp only [logRestOf, Option.some.injEq, Prod.mk.injEq] at hlr
            obtain ⟨h1, h2⟩ := hlr
            rcases hmid with ⟨k, hk1, hk2⟩ | ⟨hk1, hk2⟩
            · exact Or.inl ⟨k + 1, by simp [h2.symm, hk1, hsrest],
                by simp [h1.symm, hk2, hsrest, enterName]⟩
            · exact Or.inr ⟨by simp [h2.symm, hk1],
                by simp [h1.symm, hk2, hsrest, enterName]⟩
          · simp only [hz] at hlr
            simp only [logRestOf, Option.some.injEq, Prod.mk.injEq] at hlr
            obtain ⟨h1, h2⟩ := hlr
            rcases hmid with ⟨k, hk1, hk2⟩ | ⟨hk1, hk2⟩
            · exact Or.inl ⟨k + 1, by simp [h2.symm, hk1, hsrest],
                by simp [h1.symm, hk2, hsrest, enterName]⟩
            · exact Or.inr ⟨by simp [h2.symm, hk1],
                by simp [h1.symm, hk2, hsrest, enterName]⟩
        | err s2 m =>
          simp only [hin] at hlr
          simp only [logRestOf, Option.some.injEq, Prod.mk.injEq] at hlr
          obtain ⟨h1, h2⟩ := hlr
          have hmid := ih (e.handler c1) ⟨c1, rest, s.log ++ [Ev.enter e.name]⟩
            hrest2 hcnt2 s2.log s2.rest (by rw [hin]; rfl)
          rcases hmid with ⟨k, hk1, hk2⟩ | ⟨hk1, hk2⟩
          · exact Or.inl ⟨k + 1, by simp [h2.symm, hk1, hsrest],
              by simp [h1.symm, hk2, hsrest, enterName]⟩
          · exact Or.inr ⟨by simp [h2.symm, hk1],
              by simp [h1.symm, hk2, hsrest, enterName]⟩
        | fuelOut =>
          simp only [hin] at hlr
          simp [logRestOf] at hlr

/-- An action keeps a context property `P` invariant. -/
def ActPreserves (P : Ctx → Prop) : Act → Prop
  | .eff g => ∀ c, P c → P (g c)
  | _ => True

/-- Every action the entry's handler can perform keeps `P` invariant. -/
def EntryPreserves (P : Ctx → Prop) (e : Entry) : Prop :=
  ∀ c, ∀ a ∈ e.handler c, ActPreserves P a

theorem seqStep_preserves (P : Ctx → Prop) :
    ∀ (as : List Act) (c : Ctx), (∀ a ∈ as, ActPreserves P a) → P c →
    (∀ c', seqStep as c = .done c' → P c') ∧
    (∀ c' m, seqStep as c = .thrown c' m → P c') ∧
    (∀ c' after, seqStep as c = .nextAt c' after →
      P c' ∧ ∀ a ∈ after, ActPreserves P a) := by
  intro as
  induction as with
  | nil =>
    intro c _ hc
    refine ⟨?_, ?_, ?_⟩
    · intro c' h; rw [seqStep] at h; cases h; exact hc
    · intro c' m h; rw [seqStep] at h; cases h
    · intro c' after h; rw [seqStep] at h; cases h
  | cons a t ih =>
    intro c has hc
    cases a with
    | eff g =>
      have hg : P (g c) := has (Act.eff g) (List.mem_cons_self _ _) c hc
      have ht : ∀ x ∈ t, ActPreserves P x :=
        fun x hx => has x (List.mem_cons_of_mem _ hx)
      exact ih (g c) ht hg
    | next =>
      refine ⟨?_, ?_, ?_⟩
      · intro c' h; rw [seqStep] at h; cases h
      · intro c' m h; rw [seqStep] at h; cases h
      · intro c' after h
        rw [seqStep] at h
        cases h
        exact ⟨hc, fun x hx => has x (List.mem_cons_of_mem _ hx)⟩
    | throwErr m0 =>
      refine ⟨?_, ?_, ?_⟩
      · intro c' h; rw [seqStep] at h; cases h
      · intro c' m h; rw [seqStep] at h; cases h; exact hc
      · intro c' after h; rw [seqStep] at h; cases h

/-- If every pending entry, every remaining action and the terminal handler
keep `P` invariant, a completed run keeps it (also across an uncaught
throw, since the source mutates a shared context object). -/
theorem runActs_preserves (term : Ctx → Ctx) (P : Ctx → Prop)
    (hterm : ∀ c, P c → P (term c)) :
    ∀ (fuel : Nat) (as : List Act) (s : PState),
    (∀ e ∈ s.rest, EntryPreserves P e) → (∀ a ∈ as, ActPreserves P a) → P s.ctx →
    (∀ s', runActs term fuel as s = .ok s' →
        P s'.ctx ∧ ∀ e ∈ s'.rest, EntryPreserves P e) ∧
    (∀ s' m, runActs term fuel as s = .err s' m →
        P s'.ctx ∧ ∀ e ∈ s'.rest, EntryPreserves P e) := by
  intro fuel
  induction fuel with
  | zero =>
    intro as s hrest has hc
    obtain ⟨hdone, hthrown, _⟩ := seqStep_preserves P as s.ctx has hc
    cases hstep : seqStep as s.ctx with
    | done c' =>
      refine ⟨?_, ?_⟩
      · intro s' h; rw [runActs, hstep] at h; cases h
        exact ⟨hdone c' hstep, hrest⟩
      · intro s' m h; rw [runActs, hstep] at h; cases h
    | thrown c' m =>
      refine ⟨?_, ?_⟩
      · intro s' h; rw [runActs, hstep] at h; cases h
      · intro s' m' h; rw [runActs, hstep] at h; cases h
        exact ⟨hthrown c' m hstep, hrest⟩
    | nextAt c1 after =>
      refine ⟨?_, ?_⟩
      · intro s' h; rw [runActs, hstep] at h; cases h
      · intro s' m h; rw [runActs, hstep] at h; cases h
  | succ f ih =>
    intro as s hrest has hc
    obtain ⟨hdone, hthrown, hnext⟩ := seqStep_preserves P as s.ctx has hc
    cases hstep : seqStep as s.ctx with
    | done c' =>
      refine ⟨?_, ?_⟩
      · intro s' h; rw [runActs, hstep] at h; cases h
        exact ⟨hdone c' hstep, hrest⟩
      · intro s' m h; rw [runActs, hstep] at h; cases h
    | thrown c' m =>
      refine ⟨?_, ?_⟩
      · intro s' h; rw [runActs, hstep] at h; cases h
      · intro s' m' h; rw [runActs, hstep] at h; cases h
        exact ⟨hthrown c' m hstep, hrest⟩
    | nextAt c1 after =>
      obtain ⟨hc1, hafter⟩ := hnext c1 after hstep
      rcases hsrest : s.rest with _ | ⟨e, rest⟩
      · have htail := ih after ⟨term c1, [], s.log ++ [Ev.terminal]⟩
          (by intro x hx; cases hx) hafter (hterm c1 hc1)
        refine ⟨?_, ?_⟩
        · intro s' h; rw [runActs, hstep] at h; simp only [hsrest] at h
          exact htail.1 s' h
        · intro s' m h; rw [runActs, hstep] at h; simp only [hsrest] at h
          exact htail.2 s' m h
      · have hrest2 : ∀ x ∈ rest, EntryPreserves P x := by
          intro x hx
          exact hrest x (by rw [hsrest]; exact List.mem_cons_of_mem e hx)
        have he : EntryPreserves P e :=
          hrest e (by rw [hsrest]; exact List.mem_cons_self e rest)
        have hmid := ih (e.handler c1) ⟨c1, rest, s.log ++ [Ev.enter e.name]⟩
          hrest2 (he c1) hc1
        cases hin : runActs term f (e.handler c1)
            ⟨c1, rest, s.log ++ [Ev.enter e.name]⟩ with
        | ok s2 =>
          obtain ⟨hs2, hs2rest⟩ := hmid.1 s2 hin
          have htail := ih after s2 hs2rest hafter hs2
          refine ⟨?_, ?_⟩
          · intro s' h; rw [runActs, hstep] at h; simp only [hsrest, hin] at h
            exact htail.1 s' h
          · intro s' m h; rw [runActs, hstep] at h; simp only [hsrest, hin] at h
            exact htail.2 s' m h
        | err s2 m =>
          obtain ⟨hs2, hs2rest⟩ := hmid.2 s2 m hin
          refine ⟨?_, ?_⟩
          · intro s' h
            rw [runActs, hstep] at h; simp only [hsrest, hin] at h; cases h
          · intro s' m' h
            rw [runActs, hstep] at h; simp only [hsrest, hin] at h; cases h
            exact ⟨hs2, hs2rest⟩
        | fuelOut =>
          refine ⟨?_, ?_⟩
          · intro s' h
            rw [runActs, hstep] at h; simp only [hsrest, hin] at h; cases h
          · intro s' m h
            rw [runActs, hstep] at h; simp only [hsrest, hin] at h; cases h

/-! ## Association-list lemmas -/

theorem find?_filter_keep {α : Type} (l : List (String × α)) (k k' : String)
    (h : k' ≠ k) :
    (l.filter (fun p => !(p.1 == k))).find? (fun p => p.1 == k') =
    l.find? (fun p => p.1 == k') := by
  induction l with
  | nil => rfl
  | cons a t ih =>
    by_cases ha : a.1 = k'
    · have h1 : (a.1 == k') = true := by simp [ha]
      have h2 : (a.1 == k) = false := by
        simp only [beq_eq_false_iff_ne, ne_eq, ha]
        exact h
      simp [List.filter_cons, h2, List.find?_cons, h1]
    · have h1 : (a.1 == k') = false := by simp [ha]
      by_cases hk : a.1 = k
      · have h2 : (a.1 == k) = true := by simp [hk]
        simp [List.filter_cons, h2, List.find?_cons, h1, ih]
      · have h2 : (a.1 == k) = false := by simp [hk]
        simp [List.filter_cons, h2, List.find?_cons, h1, ih]

theorem lookupStr_setAssoc_self {α : Type} (l : List (String × α)) (k : String)
    (v : α) : lookupStr (setAssoc l k v) k = some v := by
  simp [lookupStr, setAssoc, List.find?_cons]

theorem lookupStr_setAssoc_other {α : Type} (l : List (String × α)) (k k' : String)
    (v : α) (h : k' ≠ k) : lookupStr (setAssoc l k v) k' = lookupStr l k' := by
  have h1 : (k == k') = false := by
    simp only [beq_eq_false_iff_ne, ne_eq]
    exact fun hh => h hh.symm
  simp [lookupStr, setAssoc, List.find?_cons, h1, find?_filter_keep l k k' h]

theorem getResHeader_setResHeader_self (k v : String) (c : Ctx) :
    getResHeader (setResHeader k v c) k = some v := by
  simp [getResHeader, setResHeader, lookupStr_setAssoc_self]

theorem getResHeader_setResHeader_other (k k' v : String) (c : Ctx) (h : k' ≠ k) :
    getResHeader (setResHeader k v c) k' = getResHeader c k' := by
  simp [getResHeader, setResHeader, lookupStr_setAssoc_other _ _ _ _ h]

theorem getResHeader_setStatus (n : Nat) (c : Ctx) (k : String) :
    getResHeader (setStatus n c) k = getResHeader c k := rfl

/-! ## Sample data for the concrete witnesses -/

/-- A plain GET request context. -/
def sampleCtx : Ctx :=
  { reqMethod := "GET", reqPath := "/", reqHeaders := [], reqCookies := [],
    reqForm := [], resStatus := 200, resHeaders := [], resBody := "",
    resCookies := [], vars := [], params := [], startTime := 0,
    rytestackData := [] }

/-- An entry that just delegates. -/
def mwA : Entry := { name := "A", handler := fun _ => [Act.next] }

/-- An entry that mutates the response and delegates. -/
def mwB : Entry :=
  { name := "B", handler := fun _ => [Act.eff (setStatus 201), Act.next] }

/-- An entry that returns normally without calling its continuation. -/
def mwStop : Entry := { name := "stop", handler := fun _ => [] }

/-- An entry that throws before calling its continuation. -/
def mwBoom : Entry :=
  { name := "boom", handler := fun _ => [Act.throwErr "boom"] }

/-! ## Claims C1-C4: pipeline ordering, at-most-once, short-circuit, abort -/

/-- C1: for every chain of `N` middleware entries (`N = 0` included) plus a
terminal handler, if every entry's handler calls its continuation exactly
once (on any context, returning normally), then the pipeline built by
`createMiddlewareStack` runs the entries in list order and invokes the
terminal handler exactly once: the recorded event log is exactly the entry
names in list order followed by one terminal event. -/
theorem claim_C1_chain_order (middlewares : List Entry) (term : Ctx → Ctx)
    (now : Nat) (c : Ctx)
    (hall : ∀ e ∈ middlewares, CallsOnce e)
    (fuel : Nat) (hfuel : middlewares.length + 1 ≤ fuel) :
    ∃ s, createMiddlewareStack middlewares term now fuel c = .ok s ∧
      s.log = middlewares.map enterName ++ [Ev.terminal] := by
  obtain ⟨c', h⟩ := runActs_all_once term middlewares hall fuel hfuel [Act.next]
    (by decide) (createMiddlewareContext now c) []
  exact ⟨_, h, by simp⟩

/-- Witness for C1: a concrete two-entry chain. -/
theorem claim_C1_chain_order_witness :
    (∀ e ∈ [mwA, mwB], CallsOnce e) ∧ [mwA, mwB].length + 1 ≤ 4 ∧
    (∃ s, createMiddlewareStack [mwA, mwB] id 0 4 sampleCtx = .ok s ∧
      s.log = [mwA, mwB].map enterName ++ [Ev.terminal]) := by
  have hall : ∀ e ∈ [mwA, mwB], CallsOnce e := by
    intro e he c
    rcases List.mem_cons.1 he with h | h
    · subst h; exact (by decide : goodOnce [Act.next])
    rcases List.mem_cons.1 h with h2 | h2
    · subst h2; exact (by decide : goodOnce [Act.eff (setStatus 201), Act.next])
    · cases h2
  exact ⟨hall, by decide,
    claim_C1_chain_order [mwA, mwB] id 0 sampleCtx hall 4 (by decide)⟩

/-- C2: for every chain and every request, under the spec's contract that
each entry invokes its continuation at most once, every completed run (also
one that throws) enters a prefix of the entries, in list order and each at
most once, and the terminal handler runs at most once and only when every
entry has entered. -/
theorem claim_C2_at_most_once (middlewares : List Entry) (term : Ctx → Ctx)
    (now fuel : Nat) (c : Ctx)
    (hall : ∀ e ∈ middlewares, AtMostOnce e)
    (lg : List Ev) (rst : List Entry)
    (hrun : logRestOf (createMiddlewareStack middlewares term now fuel c) =
      some (lg, rst)) :
    (∃ k, lg = (middlewares.take k).map enterName) ∨
    (lg = middlewares.map enterName ++ [Ev.terminal]) := by
  have hq := runActs_atMostOnce term fuel [Act.next]
    ⟨createMiddlewareContext now c, middlewares, []⟩ hall (by decide) lg rst hrun
  rcases hq with ⟨k, _, hk⟩ | ⟨_, hk⟩
  · exact Or.inl ⟨k, by simpa using hk⟩
  · exact Or.inr (by simpa using hk)

/-- Witness for C2: a concrete chain with one delegating entry and one
short-circuiting entry; the completed run enters the strict prefix only. -/
theorem claim_C2_at_most_once_witness :
    (∀ e ∈ [mwA, mwStop, mwB], AtMostOnce e) ∧
    (logRestOf (createMiddlewareStack [mwA, mwStop, mwB] id 0 5 sampleCtx) =
      some ([Ev.enter "A", Ev.enter "stop"], [mwB])) ∧
    ((∃ k, [Ev.enter "A", Ev.enter "stop"] =
        ([mwA, mwStop, mwB].take k).map enterName) ∨
      ([Ev.enter "A", Ev.enter "stop"] =
        [mwA, mwStop, mwB].map enterName ++ [Ev.terminal])) := by
  have hall : ∀ e ∈ [mwA, mwStop, mwB], AtMostOnce e := by
    intro e he c
    rcases List.mem_cons.1 he with h | h
    · subst h; exact (by decide : List.countP Act.isNext [Act.next] ≤ 1)
    rcases List.mem_cons.1 h with h2 | h2
    · subst h2; exact (by decide : List.countP Act.isNext ([] : List Act) ≤ 1)
    rcases List.mem_cons.1 h2 with h3 | h3
    · subst h3
      exact (by decide : List.countP Act.isNext [Act.eff (setStatus 201), Act.next] ≤ 1)
    · cases h3
  exact ⟨hall, rfl,
    claim_C2_at_most_once [mwA, mwStop, mwB] id 0 5 sampleCtx hall
      [Ev.enter "A", Ev.enter "stop"] [mwB] rfl⟩

/-- C3: if the entries before position `k` call their continuation exactly
once and entry `k` returns normally without calling its continuation, then
exactly entries `0..k` execute, in order, the terminal handler does not
execute and no entry after `k` executes: the log is exactly the names of
entries `0..k`. -/
theorem claim_C3_shortcircuit (pre : List Entry) (ek : Entry) (post : List Entry)
    (term : Ctx → Ctx) (now : Nat) (c : Ctx)
    (hpre : ∀ e ∈ pre, CallsOnce e)
    (hek : ∀ c0, effOnly (ek.handler c0) = true)
    (fuel : Nat) (hfuel : pre.length + 1 ≤ fuel) :
    ∃ s, createMiddlewareStack (pre ++ ek :: post) term now fuel c = .ok s ∧
      s.log = (pre ++ [ek]).map enterName ∧ Ev.terminal ∉ s.log := by
  obtain ⟨c', h⟩ := runActs_shortcircuit term pre hpre ek hek post fuel hfuel
    [Act.next] (by decide) (createMiddlewareContext now c) []
  refine ⟨_, h, by simp, ?_⟩
  simp [enterName]

/-- Witness for C3: `[mwA, mwStop, mwB]` with the short-circuit at index 1. -/
theorem claim_C3_shortcircuit_witness :
    (∀ e ∈ [mwA], CallsOnce e) ∧ (∀ c0, effOnly (mwStop.handler c0) = true) ∧
    (∃ s, createMiddlewareStack ([mwA] ++ mwStop :: [mwB]) id 0 4 sampleCtx = .ok s ∧
      s.log = ([mwA] ++ [mwStop]).map enterName ∧ Ev.terminal ∉ s.log) := by
  have hpre : ∀ e ∈ [mwA], CallsOnce e := by
    intro e he c
    rcases List.mem_cons.1 he with h | h
    · subst h; exact (by decide : goodOnce [Act.next])
    · cases h
  exact ⟨hpre, fun c0 => rfl,
    claim_C3_shortcircuit [mwA] mwStop [mwB] id 0 sampleCtx hpre
      (fun c0 => rfl) 4 (by decide)⟩

/-- C4: if the entries before position `k` call their continuation exactly
once and entry `k` throws before calling its continuation, the failure
propagates uncaught out of the pipeline invocation (`err` outcome), the
terminal handler is never invoked and no entry after `k` runs: the log is
exactly the names of entries `0..k`, with no terminal event. -/
theorem claim_C4_throw_aborts (pre : List Entry) (ek : Entry) (post : List Entry)
    (term : Ctx → Ctx) (now : Nat) (c : Ctx)
    (hpre : ∀ e ∈ pre, CallsOnce e)
    (hek : ∀ c0, throwsFirst (ek.handler c0) = true)
    (fuel : Nat) (hfuel : pre.length + 1 ≤ fuel) :
    ∃ s msg, createMiddlewareStack (pre ++ ek :: post) term now fuel c = .err s msg ∧
      s.log = (pre ++ [ek]).map enterName ∧ Ev.terminal ∉ s.log := by
  obtain ⟨c', msg, h⟩ := runActs_throwAbort term pre hpre ek hek post fuel hfuel
    [Act.next] (by decide) (createMiddlewareContext now c) []
  refine ⟨_, msg, h, by simp, ?_⟩
  simp [enterName]

/-- Witness for C4: `[mwA, mwBoom, mwB]` with the throwing entry at index 1. -/
theorem claim_C4_throw_aborts_witness :
    (∀ e ∈ [mwA], CallsOnce e) ∧
    (∀ c0, throwsFirst (mwBoom.handler c0) = true) ∧
    (∃ s msg, createMiddlewareStack ([mwA] ++ mwBoom :: [mwB]) id 0 4 sampleCtx =
        .err s msg ∧
      s.log = ([mwA] ++ [mwBoom]).map enterName ∧ Ev.terminal ∉ s.log) := by
  have hpre : ∀ e ∈ [mwA], CallsOnce e := by
    intro e he c
    rcases List.mem_cons.1 he with h | h
    · subst h; exact (by decide : goodOnce [Act.next])
    · cases h
  exact ⟨hpre, fun c0 => rfl,
    claim_C4_throw_aborts [mwA] mwBoom [mwB] id 0 sampleCtx hpre
      (fun c0 => rfl) 4 (by decide)⟩

/-! ## Claim C5: CORS preflight -/

/-- C5: for every configuration and every request whose method is OPTIONS,
the cors handler performs no continuation call (so the terminal handler is
never reached through it) and does not throw, and its effects set the
`Access-Control-Allow-Methods`, `Access-Control-Allow-Headers` and
`Access-Control-Max-Age` response headers and a 204 no-content status. -/
theorem claim_C5_cors_preflight (options : CorsOptions) (c : Ctx)
    (h : c.reqMethod = "OPTIONS") :
    (corsHandler options c).countP Act.isNext = 0 ∧
    (corsHandler options c).countP Act.isThrow = 0 ∧
    getResHeader (applyEffs (corsHandler options c) c) "Access-Control-Allow-Methods" =
      some (options.allowMethods.getD
        (StrOrList.str "GET,HEAD,PUT,POST,DELETE,PATCH")).joinComma ∧
    getResHeader (applyEffs (corsHandler options c) c) "Access-Control-Allow-Headers" =
      some (options.allowHeaders.getD (StrOrList.str "")).joinComma ∧
    getResHeader (applyEffs (corsHandler options c) c) "Access-Control-Max-Age" =
      some (toString (options.maxAge.getD 86400)) ∧
    (applyEffs (corsHandler options c) c).resStatus = 204 := by
  have hacts : corsHandler options c =
      [Act.eff (setResHeader "Access-Control-Allow-Methods"
          (options.allowMethods.getD
            (StrOrList.str "GET,HEAD,PUT,POST,DELETE,PATCH")).joinComma),
       Act.eff (setResHeader "Access-Control-Allow-Headers"
          (options.allowHeaders.getD (StrOrList.str "")).joinComma),
       Act.eff (setResHeader "Access-Control-Max-Age"
          (toString (options.maxAge.getD 86400))),
       Act.eff (setStatus 204)] := by
    simp [corsHandler, h]
  rw [hacts]
  refine ⟨rfl, rfl, ?_, ?_, ?_, rfl⟩
  · rw [show applyEffs [Act.eff (setResHeader "Access-Control-Allow-Methods"
        (options.allowMethods.getD
          (StrOrList.str "GET,HEAD,PUT,POST,DELETE,PATCH")).joinComma),
      Act.eff (setResHeader "Access-Control-Allow-Headers"
        (options.allowHeaders.getD (StrOrList.str "")).joinComma),
      Act.eff (setResHeader "Access-Control-Max-Age"
        (toString (options.maxAge.getD 86400))),
      Act.eff (setStatus 204)] c =
      setStatus 204 (setResHeader "Access-Control-Max-Age"
        (toString (options.maxAge.getD 86400))
        (setResHeader "Access-Control-Allow-Headers"
          (options.allowHeaders.getD (StrOrList.str "")).joinComma
          (setResHeader "Access-Control-Allow-Methods"
            (options.allowMethods.getD
              (StrOrList.str "GET,HEAD,PUT,POST,DELETE,PATCH")).joinComma c))) from rfl]
    rw [getResHeader_setStatus,
      getResHeader_setResHeader_other _ _ _ _ (by decide),
      getResHeader_setResHeader_other _ _ _ _ (by decide),
      getResHeader_setResHeader_self]
  · rw [show applyEffs [Act.eff (setResHeader "Access-Control-Allow-Methods"
        (options.allowMethods.getD
          (StrOrList.str "GET,HEAD,PUT,POST,DELETE,PATCH")).joinComma),
      Act.eff (setResHeader "Access-Control-Allow-Headers"
        (options.allowHeaders.getD (StrOrList.str "")).joinComma),
      Act.eff (setResHeader "Access-Control-Max-Age"
        (toString (options.maxAge.getD 86400))),
      Act.eff (setStatus 204)] c =
      setStatus 204 (setResHeader "Access-Control-Max-Age"
        (toString (options.maxAge.getD 86400))
        (setResHeader "Access-Control-Allow-Headers"
          (options.allowHeaders.getD (StrOrList.str "")).joinComma
          (setResHeader "Access-Control-Allow-Methods"
            (options.allowMethods.getD
              (StrOrList.str "GET,HEAD,PUT,POST,DELETE,PATCH")).joinComma c))) from rfl]
    rw [getResHeader_setStatus,
      getResHeader_setResHeader_other _ _ _ _ (by decide),
      getResHeader_setResHeader_self]
  · rw [show applyEffs [Act.eff (setResHeader "Access-Control-Allow-Methods"
        (options.allowMethods.getD
          (StrOrList.str "GET,HEAD,PUT,POST,DELETE,PATCH")).joinComma),
      Act.eff (setResHeader "Access-Control-Allow-Headers"
        (options.allowHeaders.getD (StrOrList.str "")).joinComma),
      Act.eff (setResHeader "Access-Control-Max-Age"
        (toString (options.maxAge.getD 86400))),
      Act.eff (setStatus 204)] c =
      setStatus 204 (setResHeader "Access-Control-Max-Age"
        (toString (options.maxAge.getD 86400))
        (setResHeader "Access-Control-Allow-Headers"
          (options.allowHeaders.getD (StrOrList.str "")).joinComma
          (setResHeader "Access-Control-Allow-Methods"
            (options.allowMethods.getD
              (StrOrList.str "GET,HEAD,PUT,POST,DELETE,PATCH")).joinComma c))) from rfl]
    rw [getResHeader_setStatus, getResHeader_setResHeader_self]

/-- An OPTIONS preflight request for the C5 witness. -/
def preflightCtx : Ctx :=
  { sampleCtx with reqMethod := "OPTIONS",
                   reqHeaders := [("Origin", "http://a.example")] }

/-- Witness for C5 at a concrete OPTIONS request with default options. -/
theorem claim_C5_cors_preflight_witness :
    preflightCtx.reqMethod = "OPTIONS" ∧
    ((corsHandler {} preflightCtx).countP Act.isNext = 0 ∧
     (corsHandler {} preflightCtx).countP Act.isThrow = 0 ∧
     getResHeader (applyEffs (corsHandler {} preflightCtx) preflightCtx)
        "Access-Control-Allow-Methods" =
       some (({} : CorsOptions).allowMethods.getD
         (StrOrList.str "GET,HEAD,PUT,POST,DELETE,PATCH")).joinComma ∧
     getResHeader (applyEffs (corsHandler {} preflightCtx) preflightCtx)
        "Access-Control-Allow-Headers" =
       some (({} : CorsOptions).allowHeaders.getD (StrOrList.str "")).joinComma ∧
     getResHeader (applyEffs (corsHandler {} preflightCtx) preflightCtx)
        "Access-Control-Max-Age" =
       some (toString (({} : CorsOptions).maxAge.getD 86400)) ∧
     (applyEffs (corsHandler {} preflightCtx) preflightCtx).resStatus = 204) :=
  ⟨rfl, claim_C5_cors_preflight {} preflightCtx rfl⟩

/-! ## Claim C9: compression -/

/-- C9: for every configuration, the compression handler always calls its
continuation first and then runs a single post-effect; on any downstream
context `x`, that effect never modifies the response body, and it sets the
`Content-Encoding` header (to `br` when brotli is accepted, else `gzip`) if
and only if the request's `Accept-Encoding` includes `br` or `gzip`, the
response `Content-Type` contains a configured content type, and the response
body length is at least the configured threshold (default 1024); otherwise
it leaves the context unchanged. -/
theorem claim_C9_compression (options : CompressionOptions) (c x : Ctx) :
    (compression options).handler c =
      [Act.next, Act.eff (compressionPost (options.threshold.getD 1024)
        (options.contentTypes.getD DEFAULT_CONTENT_TYPES))] ∧
    compressionPost (options.threshold.getD 1024)
        (options.contentTypes.getD DEFAULT_CONTENT_TYPES) x =
      (if (jsIncludes ((getReqHeader x "Accept-Encoding").getD "") "br" ||
           jsIncludes ((getReqHeader x "Accept-Encoding").getD "") "gzip") &&
          (options.contentTypes.getD DEFAULT_CONTENT_TYPES).any
            (fun t => jsIncludes ((getResHeader x "Content-Type").getD "") t) &&
          !(x.resBody.length < options.threshold.getD 1024) then
        setResHeader "Content-Encoding"
          (if jsIncludes ((getReqHeader x "Accept-Encoding").getD "") "br"
           then "br" else "gzip") x
      else x) ∧
    (compressionPost (options.threshold.getD 1024)
        (options.contentTypes.getD DEFAULT_CONTENT_TYPES) x).resBody = x.resBody := by
  have hchar : compressionPost (options.threshold.getD 1024)
      (options.contentTypes.getD DEFAULT_CONTENT_TYPES) x =
      (if (jsIncludes ((getReqHeader x "Accept-Encoding").getD "") "br" ||
           jsIncludes ((getReqHeader x "Accept-Encoding").getD "") "gzip") &&
          (options.contentTypes.getD DEFAULT_CONTENT_TYPES).any
            (fun t => jsIncludes ((getResHeader x "Content-Type").getD "") t) &&
          !(x.resBody.length < options.threshold.getD 1024) then
        setResHeader "Content-Encoding"
          (if jsIncludes ((getReqHeader x "Accept-Encoding").getD "") "br"
           then "br" else "gzip") x
      else x) := by
    by_cases hbr : jsIncludes ((getReqHeader x "Accept-Encoding").getD "") "br" <;>
    by_cases hgz : jsIncludes ((getReqHeader x "Accept-Encoding").getD "") "gzip" <;>
    by_cases hsc : (options.contentTypes.getD DEFAULT_CONTENT_TYPES).any
      (fun t => jsIncludes ((getResHeader x "Content-Type").getD "") t) <;>
    by_cases hlen : x.resBody.length < options.threshold.getD 1024 <;>
    simp [compressionPost, hbr, hgz, hsc, hlen]
  refine ⟨rfl, hchar, ?_⟩
  rw [hchar]
  split
  · rfl
  · rfl

/-! ## Claim C10: CORS allow-origin resolution for an array option -/

/-- C10 as stated is false: with an allowed-origins array containing the
empty string, a request without an `Origin` header gets
`Access-Control-Allow-Origin` set to the empty string (the defaulted request
origin), not to the first element of the array. -/
def corsEmptyMemberOpts : CorsOptions :=
  { origin := some (OriginOpt.list ["http://a.example", ""]) }

/-- Counterexample for C10: `origin = ["http://a.example", ""]` and a GET
request with no `Origin` header.  The claim as stated requires the header to
be the first element `"http://a.example"`; the code sets `""`. -/
theorem claim_C10_counterexample :
    sampleCtx.reqMethod ≠ "OPTIONS" ∧
    getReqHeader sampleCtx "Origin" = none ∧
    getResHeader (applyEffs (corsHandler corsEmptyMemberOpts sampleCtx) sampleCtx)
      "Access-Control-Allow-Origin" = some "" ∧
    ¬ getResHeader (applyEffs (corsHandler corsEmptyMemberOpts sampleCtx) sampleCtx)
      "Access-Control-Allow-Origin" = some "http://a.example" := by
  decide

/-- C10 amended: for a nonempty allowed-origins array and a non-OPTIONS
request, the code treats an absent `Origin` header as the empty-string
origin: `Access-Control-Allow-Origin` is set to the request's effective
origin (the header value, defaulting to the empty string) when that value is
a member of the array, otherwise to the first element of the array. -/
theorem claim_C10_cors_origin_array (options : CorsOptions) (c : Ctx)
    (first : String) (restOrigins : List String)
    (horig : options.origin = some (OriginOpt.list (first :: restOrigins)))
    (hm : c.reqMethod ≠ "OPTIONS") :
    getResHeader (applyEffs (corsHandler options c) c) "Access-Control-Allow-Origin" =
      some (if (first :: restOrigins).contains ((getReqHeader c "Origin").getD "")
            then (getReqHeader c "Origin").getD "" else first) := by
  have hmb : (c.reqMethod == "OPTIONS") = false := by
    simp [hm]
  have hval : corsOriginHeader (OriginOpt.list (first :: restOrigins)) c =
      some (if (first :: restOrigins).contains ((getReqHeader c "Origin").getD "")
            then (getReqHeader c "Origin").getD "" else first) := by
    rw [corsOriginHeader]
    split
    · simp_all
    · simp_all
  have hacts : corsHandler options c =
      [Act.eff (honoHeader "Access-Control-Allow-Origin"
        (corsOriginHeader (OriginOpt.list (first :: restOrigins)) c))]
      ++ (if options.credentials.getD false then
            [Act.eff (setResHeader "Access-Control-Allow-Credentials" "true")]
          else [])
      ++ (if (options.exposeHeaders.getD (StrOrList.str "")).truthy then
            [Act.eff (setResHeader "Access-Control-Expose-Headers"
              (options.exposeHeaders.getD (StrOrList.str "")).joinComma)]
          else [])
      ++ [Act.next] := by
    simp [corsHandler, horig, hmb]
  rw [hacts]
  rw [show applyEffs ([Act.eff (honoHeader "Access-Control-Allow-Origin"
        (corsOriginHeader (OriginOpt.list (first :: restOrigins)) c))]
      ++ (if options.credentials.getD false then
            [Act.eff (setResHeader "Access-Control-Allow-Credentials" "true")]
          else [])
      ++ (if (options.exposeHeaders.getD (StrOrList.str "")).truthy then
            [Act.eff (setResHeader "Access-Control-Expose-Headers"
              (options.exposeHeaders.getD (StrOrList.str "")).joinComma)]
          else [])
      ++ [Act.next]) c =
    applyEffs ((if (options.exposeHeaders.getD (StrOrList.str "")).truthy then
            [Act.eff (setResHeader "Access-Control-Expose-Headers"
              (options.exposeHeaders.getD (StrOrList.str "")).joinComma)]
          else []) ++ [Act.next])
      (applyEffs (if options.credentials.getD false then
            [Act.eff (setResHeader "Access-Control-Allow-Credentials" "true")]
          else [])
        (honoHeader "Access-Control-Allow-Origin"
          (corsOriginHeader (OriginOpt.list (first :: restOrigins)) c) c)) from by
    simp [applyEffs, List.foldl_append]]
  rw [hval]
  have hbase : getResHeader (honoHeader "Access-Control-Allow-Origin"
      (some (if (first :: restOrigins).contains ((getReqHeader c "Origin").getD "")
             then (getReqHeader c "Origin").getD "" else first)) c)
      "Access-Control-Allow-Origin" =
      some (if (first :: restOrigins).contains ((getReqHeader c "Origin").getD "")
            then (getReqHeader c "Origin").getD "" else first) := by
    rw [honoHeader]
    exact getResHeader_setResHeader_self _ _ _
  by_cases hcred : options.credentials.getD false <;>
  by_cases hexp : (options.exposeHeaders.getD (StrOrList.str "")).truthy <;>
  simp [hcred, hexp, applyEffs,
    getResHeader_setResHeader_other _ _ _ _
      (show ("Access-Control-Allow-Origin" : String) ≠
        "Access-Control-Allow-Credentials" by decide),
    getResHeader_setResHeader_other _ _ _ _
      (show ("Access-Control-Allow-Origin" : String) ≠
        "Access-Control-Expose-Headers" by decide)] <;>
  simpa using hbase

/-- Witness for the amended C10: the counterexample configuration, where the
effective origin is the empty string and a member of the array. -/
theorem claim_C10_cors_origin_array_witness :
    corsEmptyMemberOpts.origin = some (OriginOpt.list ["http://a.example", ""]) ∧
    sampleCtx.reqMethod ≠ "OPTIONS" ∧
    getResHeader (applyEffs (corsHandler corsEmptyMemberOpts sampleCtx) sampleCtx)
      "Access-Control-Allow-Origin" =
      some (if ["http://a.example", ""].contains ((getReqHeader sampleCtx "Origin").getD "")
            then (getReqHeader sampleCtx "Origin").getD "" else "http://a.example") :=
  ⟨rfl, by decide,
    claim_C10_cors_origin_array corsEmptyMemberOpts sampleCtx
      "http://a.example" [""] rfl (by decide)⟩

/-! ## Claim C8: security headers -/

theorem runActs_nil (term : Ctx → Ctx) (fuel : Nat) (s : PState) :
    runActs term fuel [] s = .ok s := by
  cases fuel <;> rfl

theorem seqStep_append_effOnly (as1 as2 : List Act) (h : effOnly as1 = true)
    (c : Ctx) : seqStep (as1 ++ as2) c = seqStep as2 (applyEffs as1 c) := by
  induction as1 generalizing c with
  | nil => rfl
  | cons a t ih =>
    cases a with
    | eff g =>
      rw [List.cons_append, seqStep, applyEffs_cons_eff]
      exact ih (by simpa [effOnly, Act.isEff] using h) (g c)
    | next => simp [effOnly, Act.isEff] at h
    | throwErr m => simp [effOnly, Act.isEff] at h

theorem runActs_append_effOnly (term : Ctx → Ctx) (fuel : Nat)
    (as1 as2 : List Act) (h : effOnly as1 = true) (sc : Ctx) (sr : List Entry)
    (sl : List Ev) :
    runActs term fuel (as1 ++ as2) ⟨sc, sr, sl⟩ =
    runActs term fuel as2 ⟨applyEffs as1 sc, sr, sl⟩ := by
  cases fuel <;> rw [runActs, runActs, seqStep_append_effOnly as1 as2 h sc]

/-- One unfolding of the pipeline: the first continuation invocation enters
the first entry, and the result of the entry's run is the pipeline result. -/
theorem runActs_one_next_cons (term : Ctx → Ctx) (f : Nat) (e : Entry)
    (rest : List Entry) (sc : Ctx) (sl : List Ev) :
    runActs term (f + 1) [Act.next] ⟨sc, e :: rest, sl⟩ =
      match runActs term f (e.handler sc) ⟨sc, rest, sl ++ [Ev.enter e.name]⟩ with
      | .ok s1 => .ok s1
      | .err s1 m => .err s1 m
      | .fuelOut => .fuelOut := by
  cases hin : runActs term f (e.handler sc) ⟨sc, rest, sl ++ [Ev.enter e.name]⟩ with
  | ok s1 => rw [runActs]; simp [seqStep, hin, runActs_nil]
  | err s1 m => rw [runActs]; simp [seqStep, hin]
  | fuelOut => rw [runActs]; simp [seqStep, hin]

/-- The action never changes response header `k`. -/
def ActKeepsResHeader (k : String) : Act → Prop
  | .eff g => ∀ x, getResHeader (g x) k = getResHeader x k
  | _ => True

/-- No action the entry's handler can perform changes response header `k`. -/
def EntryKeepsResHeader (k : String) (e : Entry) : Prop :=
  ∀ c, ∀ a ∈ e.handler c, ActKeepsResHeader k a

/-- Both `X-Content-Type-Options: nosniff` and `X-Frame-Options: SAMEORIGIN`
are present. -/
def shP (x : Ctx) : Prop :=
  getResHeader x "X-Content-Type-Options" = some "nosniff" ∧
  getResHeader x "X-Frame-Options" = some "SAMEORIGIN"

theorem actPreserves_shP (a : Act)
    (h1 : ActKeepsResHeader "X-Content-Type-Options" a)
    (h2 : ActKeepsResHeader "X-Frame-Options" a) : ActPreserves shP a := by
  cases a with
  | eff g =>
    intro x hx
    exact ⟨(h1 x).trans hx.1, (h2 x).trans hx.2⟩
  | next => trivial
  | throwErr m => trivial

/-- The effects the default-configuration security-headers handler performs
before calling its continuation. -/
def shDefaultEffs : List Act :=
  [Act.eff (setResHeader "X-XSS-Protection" "1; mode=block"),
   Act.eff (setResHeader "X-Content-Type-Options" "nosniff"),
   Act.eff (setResHeader "X-Frame-Options" "SAMEORIGIN"),
   Act.eff (setResHeader "Strict-Transport-Security"
     "max-age=15552000; includeSubDomains"),
   Act.eff (setResHeader "Referrer-Policy" "strict-origin-when-cross-origin")]

theorem securityHeaders_default_handler :
    (securityHeaders {}).handler = fun _ => shDefaultEffs ++ [Act.next] := rfl

theorem shP_after_defaults (x : Ctx) : shP (applyEffs shDefaultEffs x) := by
  constructor
  · rw [show applyEffs shDefaultEffs x =
      setResHeader "Referrer-Policy" "strict-origin-when-cross-origin"
        (setResHeader "Strict-Transport-Security"
          "max-age=15552000; includeSubDomains"
          (setResHeader "X-Frame-Options" "SAMEORIGIN"
            (setResHeader "X-Content-Type-Options" "nosniff"
              (setResHeader "X-XSS-Protection" "1; mode=block" x)))) from rfl]
    rw [getResHeader_setResHeader_other _ _ _ _ (by decide),
      getResHeader_setResHeader_other _ _ _ _ (by decide),
      getResHeader_setResHeader_other _ _ _ _ (by decide),
      getResHeader_setResHeader_self]
  · rw [show applyEffs shDefaultEffs x =
      setResHeader "Referrer-Policy" "strict-origin-when-cross-origin"
        (setResHeader "Strict-Transport-Security"
          "max-age=15552000; includeSubDomains"
          (setResHeader "X-Frame-Options" "SAMEORIGIN"
            (setResHeader "X-Content-Type-Options" "nosniff"
              (setResHeader "X-XSS-Protection" "1; mode=block" x)))) from rfl]
    rw [getResHeader_setResHeader_other _ _ _ _ (by decide),
      getResHeader_setResHeader_other _ _ _ _ (by decide),
      getResHeader_setResHeader_self]

/-- C8: for every request, the security-headers middleware with default
configuration sets `X-Content-Type-Options: nosniff` and
`X-Frame-Options: SAMEORIGIN` before calling its continuation, so every
completed pipeline outcome — a normal response, a short-circuited error
response from a later entry, or an uncaught downstream throw — carries both
headers, provided the downstream entries and the terminal handler do not
touch those two headers. -/
theorem claim_C8_security_headers (rest : List Entry) (term : Ctx → Ctx)
    (now fuel : Nat) (c : Ctx)
    (hrest : ∀ e ∈ rest, EntryKeepsResHeader "X-Content-Type-Options" e ∧
      EntryKeepsResHeader "X-Frame-Options" e)
    (hterm : ∀ x, getResHeader (term x) "X-Content-Type-Options" =
        getResHeader x "X-Content-Type-Options" ∧
      getResHeader (term x) "X-Frame-Options" = getResHeader x "X-Frame-Options") :
    (∀ s, createMiddlewareStack (securityHeaders {} :: rest) term now fuel c = .ok s →
      getResHeader s.ctx "X-Content-Type-Options" = some "nosniff" ∧
      getResHeader s.ctx "X-Frame-Options" = some "SAMEORIGIN") ∧
    (∀ s msg,
      createMiddlewareStack (securityHeaders {} :: rest) term now fuel c = .err s msg →
      getResHeader s.ctx "X-Content-Type-Options" = some "nosniff" ∧
      getResHeader s.ctx "X-Frame-Options" = some "SAMEORIGIN") := by
  cases fuel with
  | zero =>
    refine ⟨?_, ?_⟩
    · intro s h
      rw [show createMiddlewareStack (securityHeaders {} :: rest) term now 0 c =
        .fuelOut from rfl] at h
      cases h
    · intro s msg h
      rw [show createMiddlewareStack (securityHeaders {} :: rest) term now 0 c =
        .fuelOut from rfl] at h
      cases h
  | succ f =>
    have hterm2 : ∀ x, shP x → shP (term x) := by
      intro x hx
      exact ⟨(hterm x).1.trans hx.1, (hterm x).2.trans hx.2⟩
    have hentries : ∀ e ∈ rest, EntryPreserves shP e := by
      intro e he x a ha
      exact actPreserves_shP a ((hrest e he).1 x a ha) ((hrest e he).2 x a ha)
    have hacts : ∀ a ∈ ([Act.next] : List Act), ActPreserves shP a := by
      intro a ha
      rcases List.mem_singleton.1 ha with rfl
      trivial
    have hP0 : shP (applyEffs shDefaultEffs (createMiddlewareContext now c)) :=
      shP_after_defaults _
    have hpres := runActs_preserves term shP hterm2 f [Act.next]
      ⟨applyEffs shDefaultEffs (createMiddlewareContext now c), rest,
        [] ++ [Ev.enter "security-headers"]⟩ hentries hacts hP0
    have hstack : createMiddlewareStack (securityHeaders {} :: rest) term now
        (f + 1) c =
        match runActs term f [Act.next]
          ⟨applyEffs shDefaultEffs (createMiddlewareContext now c), rest,
            [] ++ [Ev.enter "security-headers"]⟩ with
        | .ok s1 => .ok s1
        | .err s1 m => .err s1 m
        | .fuelOut => .fuelOut := by
      rw [show createMiddlewareStack (securityHeaders {} :: rest) term now (f + 1) c =
        runActs term (f + 1) [Act.next]
          ⟨createMiddlewareContext now c, securityHeaders {} :: rest, []⟩ from rfl]
      rw [runActs_one_next_cons]
      rw [show (securityHeaders {}).handler (createMiddlewareContext now c) =
        shDefaultEffs ++ [Act.next] from rfl]
      rw [runActs_append_effOnly term f shDefaultEffs [Act.next] (by decide)]
      rfl
    refine ⟨?_, ?_⟩
    · intro s h
      rw [hstack] at h
      cases hin : runActs term f [Act.next]
          ⟨applyEffs shDefaultEffs (createMiddlewareContext now c), rest,
            [] ++ [Ev.enter "security-headers"]⟩ with
      | ok s1 =>
        rw [hin] at h
        simp only [] at h
        cases h
        exact (hpres.1 _ hin).1
      | err s1 m =>
        rw [hin] at h
        simp only [] at h
        cases h
      | fuelOut =>
        rw [hin] at h
        simp only [] at h
        cases h
    · intro s msg h
      rw [hstack] at h
      cases hin : runActs term f [Act.next]
          ⟨applyEffs shDefaultEffs (createMiddlewareContext now c), rest,
            [] ++ [Ev.enter "security-headers"]⟩ with
      | ok s1 =>
        rw [hin] at h
        simp only [] at h
        cases h
      | err s1 m =>
        rw [hin] at h
        simp only [] at h
        cases h
        exact (hpres.2 _ _ hin).1
      | fuelOut =>
        rw [hin] at h
        simp only [] at h
        cases h

/-- A downstream entry that produces an early error response (status 500)
without touching any header, for the C8 witness. -/
def mwStatus : Entry :=
  { name := "err", handler := fun _ => [Act.eff (setStatus 500)] }

/-- Witness for C8: the default security-headers entry followed by an entry
that short-circuits with an error status; both headers are on the result. -/
theorem claim_C8_security_headers_witness :
    (∀ e ∈ [mwStatus], EntryKeepsResHeader "X-Content-Type-Options" e ∧
      EntryKeepsResHeader "X-Frame-Options" e) ∧
    (∀ x, getResHeader (id x) "X-Content-Type-Options" =
        getResHeader x "X-Content-Type-Options" ∧
      getResHeader (id x) "X-Frame-Options" = getResHeader x "X-Frame-Options") ∧
    ((∀ s, createMiddlewareStack (securityHeaders {} :: [mwStatus]) id 0 3 sampleCtx =
        .ok s →
      getResHeader s.ctx "X-Content-Type-Options" = some "nosniff" ∧
      getResHeader s.ctx "X-Frame-Options" = some "SAMEORIGIN") ∧
    (∀ s msg,
      createMiddlewareStack (securityHeaders {} :: [mwStatus]) id 0 3 sampleCtx =
        .err s msg →
      getResHeader s.ctx "X-Content-Type-Options" = some "nosniff" ∧
      getResHeader s.ctx "X-Frame-Options" = some "SAMEORIGIN")) := by
  have hrest : ∀ e ∈ [mwStatus], EntryKeepsResHeader "X-Content-Type-Options" e ∧
      EntryKeepsResHeader "X-Frame-Options" e := by
    intro e he
    rcases List.mem_singleton.1 he with rfl
    constructor
    · intro c a ha
      rcases List.mem_singleton.1 ha with rfl
      intro x
      rfl
    · intro c a ha
      rcases List.mem_singleton.1 ha with rfl
      intro x
      rfl
  have hterm : ∀ x, getResHeader (id x) "X-Content-Type-Options" =
      getResHeader x "X-Content-Type-Options" ∧
    getResHeader (id x) "X-Frame-Options" = getResHeader x "X-Frame-Options" :=
    fun x => ⟨rfl, rfl⟩
  exact ⟨hrest, hterm,
    claim_C8_security_headers [mwStatus] id 0 3 sampleCtx hrest hterm⟩

/-! ## Claims C6 and C7: CSRF protection -/

/-- The per-session secret the handler validates against: the cookie value
when present and non-empty, else the freshly generated secret. -/
def csrfCookieSecret (tokens : CsrfTokens) (options : CsrfOptions) (c : Ctx) :
    String :=
  if !(strFalsy (lookupStr c.reqCookies
        ((mergeCsrfOptions options).cookieName.getD ""))) then
    (lookupStr c.reqCookies ((mergeCsrfOptions options).cookieName.getD "")).getD ""
  else tokens.secretSync

/-- The submitted token: the configured header, or (when that is absent or
empty) the configured form field. -/
def csrfSubmitted (options : CsrfOptions) (c : Ctx) : Option String :=
  jsOrStr (getReqHeader c ((mergeCsrfOptions options).headerName.getD ""))
          (lookupStr c.reqForm ((mergeCsrfOptions options).formFieldName.getD ""))

/-- C6: for every request whose method is not in the (merged) ignore-list,
whose path matches no ignore pattern and which the exclusion callback does
not exclude: if the submitted token is absent/empty or fails `verify`
against the cookie secret, the handler performs no continuation call and its
effects produce a 403 status with the JSON error body; if the token
verifies, the handler calls its continuation exactly once. -/
theorem claim_C6_csrf_validation (tokens : CsrfTokens) (options : CsrfOptions)
    (c : Ctx)
    (hm : ((mergeCsrfOptions options).ignoreMethods.getD []).contains c.reqMethod =
      false)
    (hp : ((mergeCsrfOptions options).ignorePaths.getD []).any
      (csrfIgnorePathMatch c.reqPath) = false)
    (hs : (match (mergeCsrfOptions options).shouldExclude with
           | some f => f c | none => false) = false) :
    ((strFalsy (csrfSubmitted options c) ||
      !(tokens.verify (csrfCookieSecret tokens options c)
        ((csrfSubmitted options c).getD ""))) = true →
      (csrfHandler tokens options c).countP Act.isNext = 0 ∧
      (applyEffs (csrfHandler tokens options c) c).resStatus = 403 ∧
      (applyEffs (csrfHandler tokens options c) c).resBody = csrfInvalidBody ∧
      getResHeader (applyEffs (csrfHandler tokens options c) c) "Content-Type" =
        some "application/json") ∧
    ((strFalsy (csrfSubmitted options c) ||
      !(tokens.verify (csrfCookieSecret tokens options c)
        ((csrfSubmitted options c).getD ""))) = false →
      (csrfHandler tokens options c).countP Act.isNext = 1) := by
  constructor
  · intro hrej
    simp only [csrfSubmitted, csrfCookieSecret] at hrej
    have hacts : csrfHandler tokens options c =
        (if !(strFalsy (lookupStr c.reqCookies
              ((mergeCsrfOptions options).cookieName.getD ""))) then ([] : List Act)
         else [Act.eff (addSetCookie
            { name := (mergeCsrfOptions options).cookieName.getD "",
              value := tokens.secretSync,
              path := (mergeCsrfCookie options.cookie).path,
              domain := (mergeCsrfCookie options.cookie).domain,
              secure := (mergeCsrfCookie options.cookie).secure,
              httpOnly := (mergeCsrfCookie options.cookie).httpOnly,
              sameSite := (mergeCsrfCookie options.cookie).sameSite,
              maxAge := (mergeCsrfCookie options.cookie).maxAge })])
        ++ [Act.eff (setStatus 403), Act.eff (ctxJson csrfInvalidBody)] := by
      rw [csrfHandler]
      simp only [hm, hp, hs, Bool.false_eq_true, reduceIte, Bool.not_false, if_true,
        hrej]
    by_cases hsec : strFalsy (lookupStr c.reqCookies
        ((mergeCsrfOptions options).cookieName.getD "")) <;>
    · rw [hacts]
      simp only [hsec, Bool.not_true, Bool.not_false, Bool.false_eq_true, reduceIte,
        if_true, if_false]
      refine ⟨?_, ?_, ?_, ?_⟩
      · simp [List.countP_append, List.countP_cons, Act.isNext]
      · simp [applyEffs, ctxJson, setStatus, addSetCookie]
      · simp [applyEffs, ctxJson, setStatus, addSetCookie]
      · simp [applyEffs, ctxJson, setStatus, addSetCookie, getResHeader,
          lookupStr_setAssoc_self]
  · intro hok
    simp only [csrfSubmitted, csrfCookieSecret] at hok
    have hacts : csrfHandler tokens options c =
        (if !(strFalsy (lookupStr c.reqCookies
              ((mergeCsrfOptions options).cookieName.getD ""))) then ([] : List Act)
         else [Act.eff (addSetCookie
            { name := (mergeCsrfOptions options).cookieName.getD "",
              value := tokens.secretSync,
              path := (mergeCsrfCookie options.cookie).path,
              domain := (mergeCsrfCookie options.cookie).domain,
              secure := (mergeCsrfCookie options.cookie).secure,
              httpOnly := (mergeCsrfCookie options.cookie).httpOnly,
              sameSite := (mergeCsrfCookie options.cookie).sameSite,
              maxAge := (mergeCsrfCookie options.cookie).maxAge })])
        ++ [Act.eff (setVar "csrfToken" (CtxVal.tokenGen
              (if !(strFalsy (lookupStr c.reqCookies
                    ((mergeCsrfOptions options).cookieName.getD ""))) then
                (lookupStr c.reqCookies
                  ((mergeCsrfOptions options).cookieName.getD "")).getD ""
               else tokens.secretSync))), Act.next] := by
      rw [csrfHandler]
      simp only [hm, hp, hs, Bool.false_eq_true, reduceIte, Bool.not_false, if_true,
        hok]
    by_cases hsec : strFalsy (lookupStr c.reqCookies
        ((mergeCsrfOptions options).cookieName.getD "")) <;>
    · rw [hacts]
      simp only [hsec, Bool.not_true, Bool.not_false, Bool.false_eq_true, reduceIte,
        if_true, if_false]
      simp [List.countP_append, List.countP_cons, Act.isNext]

/-- A CSRF `tokens` instance for the witnesses: `create` prepends `T` to the
secret and `verify` checks exactly that shape. -/
def sampleTokens : CsrfTokens :=
  { secretSync := "s0", create := fun s => "T" ++ s,
    verify := fun s t => t == "T" ++ s }

/-- A POST request carrying the default cookie secret and a matching token
in the default header. -/
def csrfCtx : Ctx :=
  { sampleCtx with reqMethod := "POST", reqPath := "/submit",
                   reqCookies := [("rytestack-csrf", "s0")],
                   reqHeaders := [("x-csrf-token", "Ts0")] }

/-- The same POST request with a tampered token. -/
def csrfBadCtx : Ctx :=
  { csrfCtx with reqHeaders := [("x-csrf-token", "evil")] }

/-- Witness for C6: the default configuration, once with a valid token
(continuation called) and once with a tampered token (403, no continuation). -/
theorem claim_C6_csrf_validation_witness :
    (((mergeCsrfOptions {}).ignoreMethods.getD []).contains csrfBadCtx.reqMethod =
      false) ∧
    ((strFalsy (csrfSubmitted {} csrfBadCtx) ||
      !(sampleTokens.verify (csrfCookieSecret sampleTokens {} csrfBadCtx)
        ((csrfSubmitted {} csrfBadCtx).getD ""))) = true) ∧
    ((csrfHandler sampleTokens {} csrfBadCtx).countP Act.isNext = 0 ∧
      (applyEffs (csrfHandler sampleTokens {} csrfBadCtx) csrfBadCtx).resStatus = 403 ∧
      (applyEffs (csrfHandler sampleTokens {} csrfBadCtx) csrfBadCtx).resBody =
        csrfInvalidBody ∧
      getResHeader (applyEffs (csrfHandler sampleTokens {} csrfBadCtx) csrfBadCtx)
        "Content-Type" = some "application/json") ∧
    ((strFalsy (csrfSubmitted {} csrfCtx) ||
      !(sampleTokens.verify (csrfCookieSecret sampleTokens {} csrfCtx)
        ((csrfSubmitted {} csrfCtx).getD ""))) = false) ∧
    ((csrfHandler sampleTokens {} csrfCtx).countP Act.isNext = 1) := by
  refine ⟨by decide, by decide, ?_, by decide, ?_⟩
  · exact (claim_C6_csrf_validation sampleTokens {} csrfBadCtx
      (by decide) (by decide) (by decide)).1 (by decide)
  · exact (claim_C6_csrf_validation sampleTokens {} csrfCtx
      (by decide) (by decide) (by decide)).2 (by decide)

/-- C7 as stated is false on two counts: a request exempt by method gets its
continuation called but no token-generation capability at all (the handler
returns before `ctx.set`), and even for validated requests the capability
goes into the Hono variable map (`ctx.set`), not into the
`context.rytestack.data` mapping cited by the claim. -/
theorem claim_C7_counterexample :
    ((mergeCsrfOptions {}).ignoreMethods.getD []).contains sampleCtx.reqMethod =
      true ∧
    (csrfHandler sampleTokens {} sampleCtx).countP Act.isNext = 1 ∧
    lookupStr (applyEffs (csrfHandler sampleTokens {} sampleCtx)
      sampleCtx).rytestackData "csrfToken" = none ∧
    lookupStr (applyEffs (csrfHandler sampleTokens {} sampleCtx) sampleCtx).vars
      "csrfToken" = none ∧
    lookupStr (applyEffs (csrfHandler sampleTokens {} csrfCtx)
      csrfCtx).rytestackData "csrfToken" = none := by
  decide

/-- C7 amended: a request exempt by method, by path, or by the exclusion
function has its continuation called — the handler is exactly one
continuation call — with no capability installed and the context untouched;
a request that passes validation has its continuation called exactly once
with the token-generation capability installed in the context's variable
map (Hono `ctx.set`), while the `rytestack.data` mapping is left
untouched. -/
theorem claim_C7_csrf_capability (tokens : CsrfTokens) (options : CsrfOptions)
    (c : Ctx) :
    ((((mergeCsrfOptions options).ignoreMethods.getD []).contains c.reqMethod =
        true ∨
      ((mergeCsrfOptions options).ignorePaths.getD []).any
        (csrfIgnorePathMatch c.reqPath) = true ∨
      (match (mergeCsrfOptions options).shouldExclude with
       | some f => f c | none => false) = true) →
      csrfHandler tokens options c = [Act.next] ∧
      applyEffs (csrfHandler tokens options c) c = c) ∧
    (((mergeCsrfOptions options).ignoreMethods.getD []).contains c.reqMethod =
        false →
     ((mergeCsrfOptions options).ignorePaths.getD []).any
        (csrfIgnorePathMatch c.reqPath) = false →
     (match (mergeCsrfOptions options).shouldExclude with
      | some f => f c | none => false) = false →
     (strFalsy (csrfSubmitted options c) ||
      !(tokens.verify (csrfCookieSecret tokens options c)
        ((csrfSubmitted options c).getD ""))) = false →
      (csrfHandler tokens options c).countP Act.isNext = 1 ∧
      lookupStr (applyEffs (csrfHandler tokens options c) c).vars "csrfToken" =
        some (CtxVal.tokenGen (csrfCookieSecret tokens options c)) ∧
      (applyEffs (csrfHandler tokens options c) c).rytestackData =
        c.rytestackData) := by
  constructor
  · intro hex
    have hacts : csrfHandler tokens options c = [Act.next] := by
      rcases hex with hm | hp | hs
      · rw [csrfHandler]
        simp only [hm, if_true, reduceIte]
      · rw [csrfHandler]
        cases hm : ((mergeCsrfOptions options).ignoreMethods.getD []).contains
            c.reqMethod with
        | true => simp only [hm, if_true, reduceIte]
        | false => simp only [hm, hp, Bool.false_eq_true, if_true, reduceIte]
      · rw [csrfHandler]
        cases hm : ((mergeCsrfOptions options).ignoreMethods.getD []).contains
            c.reqMethod with
        | true => simp only [hm, if_true, reduceIte]
        | false =>
          cases hp : ((mergeCsrfOptions options).ignorePaths.getD []).any
              (csrfIgnorePathMatch c.reqPath) with
          | true => simp only [hm, hp, Bool.false_eq_true, if_true, reduceIte]
          | false =>
            simp only [hm, hp, hs, Bool.false_eq_true, if_true, reduceIte]
    refine ⟨hacts, ?_⟩
    rw [hacts]
    rfl
  · intro hm hp hs hok
    simp only [csrfSubmitted, csrfCookieSecret] at hok
    have hacts : csrfHandler tokens options c =
        (if !(strFalsy (lookupStr c.reqCookies
              ((mergeCsrfOptions options).cookieName.getD ""))) then ([] : List Act)
         else [Act.eff (addSetCookie
            { name := (mergeCsrfOptions options).cookieName.getD "",
              value := tokens.secretSync,
              path := (mergeCsrfCookie options.cookie).path,
              domain := (mergeCsrfCookie options.cookie).domain,
              secure := (mergeCsrfCookie options.cookie).secure,
              httpOnly := (mergeCsrfCookie options.cookie).httpOnly,
              sameSite := (mergeCsrfCookie options.cookie).sameSite,
              maxAge := (mergeCsrfCookie options.cookie).maxAge })])
        ++ [Act.eff (setVar "csrfToken" (CtxVal.tokenGen
              (if !(strFalsy (lookupStr c.reqCookies
                    ((mergeCsrfOptions options).cookieName.getD ""))) then
                (lookupStr c.reqCookies
                  ((mergeCsrfOptions options).cookieName.getD "")).getD ""
               else tokens.secretSync))), Act.next] := by
      rw [csrfHandler]
      simp only [hm, hp, hs, Bool.false_eq_true, reduceIte, Bool.not_false, if_true,
        hok]
    by_cases hsec : strFalsy (lookupStr c.reqCookies
        ((mergeCsrfOptions options).cookieName.getD "")) <;>
    · rw [hacts]
      simp only [hsec, Bool.not_true, Bool.not_false, Bool.false_eq_true, reduceIte,
        if_true, if_false]
      refine ⟨?_, ?_, ?_⟩
      · simp [List.countP_append, List.countP_cons, Act.isNext]
      · simp only [csrfCookieSecret, hsec, Bool.not_true, Bool.not_false,
          Bool.false_eq_true, reduceIte, if_true, if_false]
        simp [applyEffs, setVar, addSetCookie, lookupStr_setAssoc_self]
      · simp [applyEffs, setVar, addSetCookie]

/-- Options ignoring two paths, for the path-exemption part of the C7
witness. -/
def csrfPathOpts : CsrfOptions := { ignorePaths := some ["/health", "/public/*"] }

/-- A POST request (a non-ignored method) to an ignored path. -/
def csrfPathCtx : Ctx := { csrfCtx with reqPath := "/health" }

/-- Options whose exclusion callback excludes POST requests, for the
exclusion-function part of the C7 witness. -/
def csrfExclOpts : CsrfOptions :=
  { shouldExclude := some (fun x => x.reqMethod == "POST") }

/-- Witness for the amended C7: a method-exempt GET request, a path-exempt
POST request, an exclusion-function-exempt POST request, and a validated
POST request. -/
theorem claim_C7_csrf_capability_witness :
    (((mergeCsrfOptions {}).ignoreMethods.getD []).contains sampleCtx.reqMethod =
      true) ∧
    csrfHandler sampleTokens {} sampleCtx = [Act.next] ∧
    (((mergeCsrfOptions csrfPathOpts).ignorePaths.getD []).any
      (csrfIgnorePathMatch csrfPathCtx.reqPath) = true) ∧
    csrfHandler sampleTokens csrfPathOpts csrfPathCtx = [Act.next] ∧
    ((match (mergeCsrfOptions csrfExclOpts).shouldExclude with
      | some f => f csrfCtx | none => false) = true) ∧
    csrfHandler sampleTokens csrfExclOpts csrfCtx = [Act.next] ∧
    (((mergeCsrfOptions {}).ignoreMethods.getD []).contains csrfCtx.reqMethod =
      false) ∧
    ((csrfHandler sampleTokens {} csrfCtx).countP Act.isNext = 1 ∧
      lookupStr (applyEffs (csrfHandler sampleTokens {} csrfCtx) csrfCtx).vars
        "csrfToken" = some (CtxVal.tokenGen (csrfCookieSecret sampleTokens {} csrfCtx)) ∧
      (applyEffs (csrfHandler sampleTokens {} csrfCtx) csrfCtx).rytestackData =
        csrfCtx.rytestackData) := by
  refine ⟨by decide, ?_, by decide, ?_, by decide, ?_, by decide, ?_⟩
  · exact ((claim_C7_csrf_capability sampleTokens {} sampleCtx).1
      (Or.inl (by decide))).1
  · exact ((claim_C7_csrf_capability sampleTokens csrfPathOpts csrfPathCtx).1
      (Or.inr (Or.inl (by decide)))).1
  · exact ((claim_C7_csrf_capability sampleTokens csrfExclOpts csrfCtx).1
      (Or.inr (Or.inr (by decide)))).1
  · exact (claim_C7_csrf_capability sampleTokens {} csrfCtx).2
      (by decide) (by decide) (by decide) (by decide)

end Rytestack
